import Mathlib

/-!
# Verification of the xiaozhi-ai-demo audio turn-taking pipeline

This file gives a shallow embedding of the core audio pipeline of the
`speech_commands_recognition_with_llm` example:

* the streaming playback ring buffer of `AudioManager`
  (`startStreamingPlayback`, `addStreamingAudioChunk`,
  `finishStreamingPlayback` in `audio_manager.cc`),
* the utterance recording buffer (`addRecordingData` and friends),
* the VAD silence debouncer and the dialog state machine of `app_main`
  (wake-word phase, recording phase with continuous-conversation command
  handling and no-speech timeout, waiting-for-response phase).

External collaborators (microphone, renderer, detectors, WebSocket
transport, the FreeRTOS tick counter) are modelled as per-tick inputs;
the renderer and transport sends are modelled as emitted events.  Byte
and sample contents are modelled as natural numbers.
-/

namespace Xiaozhi

/-! ## The streaming playback ring buffer (`audio_manager.cc`) -/

/-- `AudioManager::STREAMING_BUFFER_SIZE`: capacity of the streaming ring
buffer in bytes (32 KiB). -/
def STREAMING_BUFFER_SIZE : Nat := 32768

/-- `AudioManager::STREAMING_CHUNK_SIZE`: bytes handed to the renderer per
drain step (200 ms of 16-bit 16 kHz audio). -/
def STREAMING_CHUNK_SIZE : Nat := 3200

/-- The streaming-playback fields of `AudioManager`: the ring buffer byte
array `streaming_buffer` (indexed `0 .. STREAMING_BUFFER_SIZE - 1`), the
write cursor `streaming_write_pos`, the read cursor `streaming_read_pos`
and the `is_streaming` flag. -/
structure StreamState where
  buf : Nat → Nat
  writePos : Nat
  readPos : Nat
  isStreaming : Bool

/-- `AudioManager::startStreamingPlayback`: sets `is_streaming`, zeroes both
cursors and `memset`s the buffer to zero. -/
def startStreamingPlayback (_s : StreamState) : StreamState :=
  { buf := fun _ => 0, writePos := 0, readPos := 0, isStreaming := true }

/-- Model of `memcpy(b + dst, src, src.length)` on the buffer array. -/
def memcpyAt (b : Nat → Nat) (dst : Nat) (src : List Nat) : Nat → Nat :=
  fun i => if dst ≤ i ∧ i < dst + src.length then src.getD (i - dst) 0 else b i

/-- The `available_space` computation at the top of
`AudioManager::addStreamingAudioChunk` (one slot is kept empty). -/
def availableSpace (s : StreamState) : Nat :=
  if s.readPos ≤ s.writePos then
    STREAMING_BUFFER_SIZE - (s.writePos - s.readPos) - 1
  else
    s.readPos - s.writePos - 1

/-- The `available_data` / `remaining_data` computation used by the drain
loop of `addStreamingAudioChunk` and by `finishStreamingPlayback`. -/
def availableData (s : StreamState) : Nat :=
  if s.readPos ≤ s.writePos then
    s.writePos - s.readPos
  else
    STREAMING_BUFFER_SIZE - s.readPos + s.writePos

/-- The buffer contents after the write phase of `addStreamingAudioChunk`:
one `memcpy` when the data fits before the end of the array, two when it
wraps around. -/
def ringWriteBuf (s : StreamState) (data : List Nat) : Nat → Nat :=
  if data.length ≤ STREAMING_BUFFER_SIZE - s.writePos then
    memcpyAt s.buf s.writePos data
  else
    memcpyAt
      (memcpyAt s.buf s.writePos (data.take (STREAMING_BUFFER_SIZE - s.writePos)))
      0 (data.drop (STREAMING_BUFFER_SIZE - s.writePos))

/-- The write-cursor value after the two branches of the write phase,
before the final wrap-to-zero check. -/
def ringWritePos (s : StreamState) (data : List Nat) : Nat :=
  if data.length ≤ STREAMING_BUFFER_SIZE - s.writePos then
    s.writePos + data.length
  else
    data.length - (STREAMING_BUFFER_SIZE - s.writePos)

/-- The write phase of `addStreamingAudioChunk`: one or two `memcpy`s
depending on wraparound, then the write cursor is advanced and wrapped to
`0` when it reaches the end of the buffer. -/
def ringWrite (s : StreamState) (data : List Nat) : StreamState :=
  { s with buf := ringWriteBuf s data,
           writePos := if STREAMING_BUFFER_SIZE ≤ ringWritePos s data then 0
                       else ringWritePos s data }

/-- The chunk assembled by one drain iteration of `addStreamingAudioChunk`
(`STREAMING_CHUNK_SIZE` bytes, split into at most two linear copies). -/
def readChunk (s : StreamState) : List Nat :=
  let bytesToEnd := STREAMING_BUFFER_SIZE - s.readPos
  if STREAMING_CHUNK_SIZE ≤ bytesToEnd then
    (List.range STREAMING_CHUNK_SIZE).map fun j => s.buf (s.readPos + j)
  else
    ((List.range bytesToEnd).map fun j => s.buf (s.readPos + j)) ++
      ((List.range (STREAMING_CHUNK_SIZE - bytesToEnd)).map fun j => s.buf j)

/-- The read-cursor update of one drain iteration, wrapped to `0` when it
reaches the end of the buffer. -/
def advanceRead (s : StreamState) : StreamState :=
  let bytesToEnd := STREAMING_BUFFER_SIZE - s.readPos
  let rp := if STREAMING_CHUNK_SIZE ≤ bytesToEnd then
              s.readPos + STREAMING_CHUNK_SIZE
            else STREAMING_CHUNK_SIZE - bytesToEnd
  { s with readPos := if STREAMING_BUFFER_SIZE ≤ rp then 0 else rp }

/-- The drain loop of `addStreamingAudioChunk`: while at least
`STREAMING_CHUNK_SIZE` bytes are available, read one chunk and hand it to
the renderer (`bsp_play_audio_stream`, modelled as always succeeding).  The
`fuel` argument bounds the iteration count; the caller passes
`availableData`, which is proved sufficient for the loop to run until the
guard fails. -/
def drainLoop : Nat → StreamState → StreamState × List (List Nat)
  | 0, s => (s, [])
  | fuel + 1, s =>
    if STREAMING_CHUNK_SIZE ≤ availableData s then
      let c := readChunk s
      let p := drainLoop fuel (advanceRead s)
      (p.1, c :: p.2)
    else (s, [])

/-- `AudioManager::addStreamingAudioChunk`: reject when not streaming or
when the chunk exceeds the free space (the `streaming_buffer == nullptr`
and `data == nullptr` cases cannot arise in the model: the buffer is
allocated at init and data is a list); otherwise write the bytes into the
ring and run the drain loop.  Returns the accept flag, the new state, and
the chunks handed to the renderer. -/
def addStreamingAudioChunk (s : StreamState) (data : List Nat) :
    Bool × StreamState × List (List Nat) :=
  if s.isStreaming = false then (false, s, [])
  else if availableSpace s < data.length then (false, s, [])
  else
    let s1 := ringWrite s data
    let p := drainLoop (availableData s1) s1
    (true, p.1, p.2)

/-- The tail flush performed by `finishStreamingPlayback`: when any bytes
remain, they are gathered with at most two linear copies (depending on
whether the data wraps around) and handed to the renderer in one
`bsp_play_audio` call (modelled as succeeding). -/
def finishFlush (s : StreamState) : List (List Nat) :=
  if 0 < availableData s then
    [ if s.readPos ≤ s.writePos then
        (List.range (availableData s)).map fun j => s.buf (s.readPos + j)
      else
        ((List.range (STREAMING_BUFFER_SIZE - s.readPos)).map
            fun j => s.buf (s.readPos + j)) ++
          ((List.range s.writePos).map fun j => s.buf j) ]
  else []

/-- `AudioManager::finishStreamingPlayback`: when streaming, play the
remaining tail bytes, then clear `is_streaming` and zero both cursors. -/
def finishStreamingPlayback (s : StreamState) : StreamState × List (List Nat) :=
  if s.isStreaming = false then (s, [])
  else ({ s with isStreaming := false, writePos := 0, readPos := 0 }, finishFlush s)

/-- Both cursors lie inside the buffer. -/
def WF (s : StreamState) : Prop :=
  s.writePos < STREAMING_BUFFER_SIZE ∧ s.readPos < STREAMING_BUFFER_SIZE

/-- The queued bytes in FIFO order, read off from the cursors. -/
def contents (s : StreamState) : List Nat :=
  (List.range (availableData s)).map
    fun j => s.buf ((s.readPos + j) % STREAMING_BUFFER_SIZE)

/-- States of the streaming engine reachable from `startStreamingPlayback`
by pushes and finishes. -/
inductive StreamReachable : StreamState → Prop where
  | start (s : StreamState) : StreamReachable (startStreamingPlayback s)
  | push (s : StreamState) (data : List Nat) :
      StreamReachable s → StreamReachable (addStreamingAudioChunk s data).2.1
  | finish (s : StreamState) :
      StreamReachable s → StreamReachable (finishStreamingPlayback s).1

/-! ### Basic arithmetic facts about the cursors -/

theorem STREAMING_BUFFER_SIZE_pos : 0 < STREAMING_BUFFER_SIZE := by
  unfold STREAMING_BUFFER_SIZE; omega

theorem availableData_le (s : StreamState) (h : WF s) :
    availableData s ≤ STREAMING_BUFFER_SIZE - 1 := by
  obtain ⟨hw, hr⟩ := h
  unfold availableData STREAMING_BUFFER_SIZE at *
  split <;> omega

theorem availableSpace_eq (s : StreamState) (h : WF s) :
    availableSpace s = STREAMING_BUFFER_SIZE - 1 - availableData s := by
  obtain ⟨hw, hr⟩ := h
  unfold availableSpace availableData STREAMING_BUFFER_SIZE at *
  split <;> omega

theorem availableSpace_le (s : StreamState) (h : WF s) :
    availableSpace s ≤ STREAMING_BUFFER_SIZE - 1 := by
  obtain ⟨hw, hr⟩ := h
  unfold availableSpace STREAMING_BUFFER_SIZE at *
  split <;> omega

/-- Available data is exactly the cursor distance mod the capacity. -/
theorem availableData_mod (s : StreamState) (h : WF s) :
    availableData s =
      (STREAMING_BUFFER_SIZE + s.writePos - s.readPos) % STREAMING_BUFFER_SIZE := by
  obtain ⟨hw, hr⟩ := h
  unfold availableData STREAMING_BUFFER_SIZE at *
  split <;> omega

theorem writePos_eq_mod (s : StreamState) (h : WF s) :
    s.writePos = (s.readPos + availableData s) % STREAMING_BUFFER_SIZE := by
  obtain ⟨hw, hr⟩ := h
  unfold availableData STREAMING_BUFFER_SIZE at *
  split <;> omega

theorem contents_length (s : StreamState) :
    (contents s).length = availableData s := by
  simp [contents]

/-! ### The write phase -/

theorem memcpyAt_in (b : Nat → Nat) (dst : Nat) (src : List Nat) (i : Nat)
    (h : i < src.length) : memcpyAt b dst src (dst + i) = src.getD i 0 := by
  unfold memcpyAt
  rw [if_pos ⟨Nat.le_add_right _ _, by omega⟩, Nat.add_sub_cancel_left]

theorem memcpyAt_out (b : Nat → Nat) (dst : Nat) (src : List Nat) (k : Nat)
    (h : k < dst ∨ dst + src.length ≤ k) : memcpyAt b dst src k = b k := by
  unfold memcpyAt
  rw [if_neg (by omega)]

@[simp] theorem ringWrite_buf (s : StreamState) (data : List Nat) :
    (ringWrite s data).buf = ringWriteBuf s data := rfl

@[simp] theorem ringWrite_readPos (s : StreamState) (data : List Nat) :
    (ringWrite s data).readPos = s.readPos := rfl

@[simp] theorem ringWrite_isStreaming (s : StreamState) (data : List Nat) :
    (ringWrite s data).isStreaming = s.isStreaming := rfl

@[simp] theorem ringWrite_writePos (s : StreamState) (data : List Nat) :
    (ringWrite s data).writePos =
      if STREAMING_BUFFER_SIZE ≤ ringWritePos s data then 0
      else ringWritePos s data := rfl

theorem ringWrite_writePos_mod (s : StreamState) (data : List Nat) (h : WF s)
    (hlen : data.length ≤ STREAMING_BUFFER_SIZE) :
    (ringWrite s data).writePos =
      (s.writePos + data.length) % STREAMING_BUFFER_SIZE := by
  obtain ⟨hw, hr⟩ := h
  rw [ringWrite_writePos]
  unfold ringWritePos STREAMING_BUFFER_SIZE at *
  split <;> split <;> omega

theorem ringWrite_WF (s : StreamState) (data : List Nat) (h : WF s)
    (_hlen : data.length ≤ STREAMING_BUFFER_SIZE) :
    WF (ringWrite s data) := by
  obtain ⟨hw, hr⟩ := h
  constructor
  · rw [ringWrite_writePos]
    unfold ringWritePos STREAMING_BUFFER_SIZE at *
    split <;> split <;> omega
  · rw [ringWrite_readPos]; exact hr

theorem accepted_length_le (s : StreamState) (data : List Nat) (h : WF s)
    (hacc : data.length ≤ availableSpace s) :
    availableData s + data.length ≤ STREAMING_BUFFER_SIZE - 1 := by
  have hle := availableData_le s h
  have hsp := availableSpace_eq s h
  omega

theorem availableData_ringWrite (s : StreamState) (data : List Nat) (h : WF s)
    (hacc : data.length ≤ availableSpace s) :
    availableData (ringWrite s data) = availableData s + data.length := by
  have hkey := accepted_length_le s data h hacc
  have hlen : data.length ≤ STREAMING_BUFFER_SIZE := by
    unfold STREAMING_BUFFER_SIZE at *; omega
  have hWF2 : WF (ringWrite s data) := ringWrite_WF s data h hlen
  have h2 := availableData_mod (ringWrite s data) hWF2
  rw [ringWrite_writePos_mod s data h hlen, ringWrite_readPos] at h2
  have h3 := writePos_eq_mod s h
  obtain ⟨hw, hr⟩ := h
  rw [h2, h3]
  unfold STREAMING_BUFFER_SIZE at *
  omega

/-! ### List helpers -/

theorem getD_take (l : List Nat) (n i d : Nat) (h : i < n) :
    (l.take n).getD i d = l.getD i d := by
  simp [List.getD_eq_getElem?_getD, List.getElem?_take, h]

theorem getD_drop (l : List Nat) (n i d : Nat) :
    (l.drop n).getD i d = l.getD (n + i) d := by
  simp [List.getD_eq_getElem?_getD, List.getElem?_drop]

theorem range_map_getD (l : List Nat) (d : Nat) :
    (List.range l.length).map (fun i => l.getD i d) = l := by
  induction l with
  | nil => simp
  | cons a t ih =>
    rw [List.length_cons, List.range_succ_eq_map, List.map_cons, List.map_map]
    have hcomp : ((fun i => (a :: t).getD i d) ∘ Nat.succ) = fun i => t.getD i d := by
      funext i
      simp
    rw [hcomp, ih]
    rfl

theorem range_drop (n m : Nat) (h : m ≤ n) :
    (List.range n).drop m = (List.range (n - m)).map (m + ·) := by
  have h1 : List.range n = List.range m ++ (List.range (n - m)).map (m + ·) := by
    rw [← List.range_add]
    congr 1
    omega
  rw [h1]
  have h2 := List.drop_left (List.range m) ((List.range (n - m)).map (m + ·))
  rwa [List.length_range] at h2

/-! ### Buffer contents after a write -/

theorem ringWriteBuf_new (s : StreamState) (data : List Nat) (h : WF s)
    (hlen : data.length ≤ STREAMING_BUFFER_SIZE) (i : Nat) (hi : i < data.length) :
    ringWriteBuf s data ((s.writePos + i) % STREAMING_BUFFER_SIZE) = data.getD i 0 := by
  obtain ⟨hw, hr⟩ := h
  unfold ringWriteBuf
  by_cases hc : data.length ≤ STREAMING_BUFFER_SIZE - s.writePos
  · rw [if_pos hc]
    have hmod : (s.writePos + i) % STREAMING_BUFFER_SIZE = s.writePos + i :=
      Nat.mod_eq_of_lt (by unfold STREAMING_BUFFER_SIZE at *; omega)
    rw [hmod]
    exact memcpyAt_in _ _ _ _ hi
  · rw [if_neg hc]
    by_cases hi2 : i < STREAMING_BUFFER_SIZE - s.writePos
    · -- the byte lands in the first linear copy
      have hmod : (s.writePos + i) % STREAMING_BUFFER_SIZE = s.writePos + i :=
        Nat.mod_eq_of_lt (by unfold STREAMING_BUFFER_SIZE at *; omega)
      rw [hmod]
      rw [memcpyAt_out _ _ _ _ (by
        right
        rw [List.length_drop, Nat.zero_add]
        unfold STREAMING_BUFFER_SIZE at *
        omega)]
      rw [memcpyAt_in s.buf s.writePos _ i
        (by rw [List.length_take]; omega)]
      exact getD_take data _ i 0 hi2
    · -- the byte lands in the wrapped copy at the start of the array
      have hmod : (s.writePos + i) % STREAMING_BUFFER_SIZE
          = i - (STREAMING_BUFFER_SIZE - s.writePos) := by
        unfold STREAMING_BUFFER_SIZE at *
        omega
      rw [hmod]
      have h1 := memcpyAt_in
        (memcpyAt s.buf s.writePos (data.take (STREAMING_BUFFER_SIZE - s.writePos)))
        0 (data.drop (STREAMING_BUFFER_SIZE - s.writePos))
        (i - (STREAMING_BUFFER_SIZE - s.writePos))
        (by rw [List.length_drop]; omega)
      rw [Nat.zero_add] at h1
      rw [h1, getD_drop]
      congr 1
      omega

theorem ringWriteBuf_old (s : StreamState) (data : List Nat) (h : WF s)
    (_hlen : data.length ≤ STREAMING_BUFFER_SIZE) (k : Nat)
    (hk : k < STREAMING_BUFFER_SIZE)
    (hout : ∀ i, i < data.length → (s.writePos + i) % STREAMING_BUFFER_SIZE ≠ k) :
    ringWriteBuf s data k = s.buf k := by
  obtain ⟨hw, hr⟩ := h
  unfold ringWriteBuf
  by_cases hc : data.length ≤ STREAMING_BUFFER_SIZE - s.writePos
  · rw [if_pos hc]
    apply memcpyAt_out
    by_contra hcon
    push_neg at hcon
    obtain ⟨h1, h2⟩ := hcon
    exact hout (k - s.writePos) (by omega) (by
      rw [show s.writePos + (k - s.writePos) = k by omega, Nat.mod_eq_of_lt hk])
  · rw [if_neg hc]
    rw [memcpyAt_out _ _ _ _ (by
      right
      rw [List.length_drop, Nat.zero_add]
      by_contra hcon
      push_neg at hcon
      refine hout ((STREAMING_BUFFER_SIZE - s.writePos) + k) (by omega) ?_
      rw [show s.writePos + ((STREAMING_BUFFER_SIZE - s.writePos) + k)
            = STREAMING_BUFFER_SIZE + k by omega,
          Nat.add_mod_left, Nat.mod_eq_of_lt hk])]
    apply memcpyAt_out
    by_contra hcon
    push_neg at hcon
    obtain ⟨h1, h2⟩ := hcon
    rw [List.length_take] at h2
    exact hout (k - s.writePos) (by omega) (by
      rw [show s.writePos + (k - s.writePos) = k by omega, Nat.mod_eq_of_lt hk])

/-- An accepted write appends the pushed bytes at the tail of the queue. -/
theorem contents_ringWrite (s : StreamState) (data : List Nat) (h : WF s)
    (hacc : data.length ≤ availableSpace s) :
    contents (ringWrite s data) = contents s ++ data := by
  have hkey := accepted_length_le s data h hacc
  have hlen : data.length ≤ STREAMING_BUFFER_SIZE := by
    unfold STREAMING_BUFFER_SIZE at *; omega
  have hle := availableData_le s h
  have hw := h.1
  have hr := h.2
  unfold contents
  rw [availableData_ringWrite s data h hacc, ringWrite_readPos, ringWrite_buf,
      List.range_add, List.map_append, List.map_map]
  congr 1
  · -- prefix: old bytes are untouched by the write
    apply List.map_congr_left
    intro j hj
    rw [List.mem_range] at hj
    apply ringWriteBuf_old s data h hlen _ (Nat.mod_lt _ STREAMING_BUFFER_SIZE_pos)
    intro i hi hEq
    have h3 := writePos_eq_mod s h
    rw [h3, Nat.mod_add_mod] at hEq
    unfold STREAMING_BUFFER_SIZE at *
    omega
  · -- suffix: newly written bytes read back as `data`
    have hpt : ∀ j ∈ List.range data.length,
        ((fun j => ringWriteBuf s data ((s.readPos + j) % STREAMING_BUFFER_SIZE)) ∘
          (availableData s + ·)) j = data.getD j 0 := by
      intro j hj
      rw [List.mem_range] at hj
      simp only [Function.comp_apply]
      have h3 := writePos_eq_mod s h
      have hidx : (s.readPos + (availableData s + j)) % STREAMING_BUFFER_SIZE
          = (s.writePos + j) % STREAMING_BUFFER_SIZE := by
        rw [h3, Nat.mod_add_mod]
        congr 1
        omega
      rw [hidx]
      exact ringWriteBuf_new s data h hlen j hj
    rw [List.map_congr_left hpt, range_map_getD]

/-! ### The drain side -/

theorem readChunk_eq (s : StreamState) (h : WF s) :
    readChunk s = (List.range STREAMING_CHUNK_SIZE).map
      fun j => s.buf ((s.readPos + j) % STREAMING_BUFFER_SIZE) := by
  obtain ⟨hw, hr⟩ := h
  unfold readChunk
  by_cases hc : STREAMING_CHUNK_SIZE ≤ STREAMING_BUFFER_SIZE - s.readPos
  · rw [if_pos hc]
    apply List.map_congr_left
    intro j hj
    rw [List.mem_range] at hj
    rw [Nat.mod_eq_of_lt (by unfold STREAMING_CHUNK_SIZE STREAMING_BUFFER_SIZE at *; omega)]
  · rw [if_neg hc]
    conv_rhs =>
      rw [show STREAMING_CHUNK_SIZE
            = (STREAMING_BUFFER_SIZE - s.readPos) +
              (STREAMING_CHUNK_SIZE - (STREAMING_BUFFER_SIZE - s.readPos)) by
          unfold STREAMING_CHUNK_SIZE STREAMING_BUFFER_SIZE at *; omega,
        List.range_add, List.map_append, List.map_map]
    congr 1
    · apply List.map_congr_left
      intro j hj
      rw [List.mem_range] at hj
      rw [Nat.mod_eq_of_lt (by unfold STREAMING_BUFFER_SIZE at *; omega)]
    · apply List.map_congr_left
      intro j hj
      rw [List.mem_range] at hj
      simp only [Function.comp_apply]
      rw [show s.readPos + ((STREAMING_BUFFER_SIZE - s.readPos) + j)
            = STREAMING_BUFFER_SIZE + j by omega,
          Nat.add_mod_left,
          Nat.mod_eq_of_lt (by unfold STREAMING_CHUNK_SIZE STREAMING_BUFFER_SIZE at *; omega)]

theorem readChunk_length (s : StreamState) (h : WF s) :
    (readChunk s).length = STREAMING_CHUNK_SIZE := by
  rw [readChunk_eq s h]
  simp

theorem readChunk_take (s : StreamState) (h : WF s)
    (hK : STREAMING_CHUNK_SIZE ≤ availableData s) :
    readChunk s = (contents s).take STREAMING_CHUNK_SIZE := by
  rw [readChunk_eq s h]
  unfold contents
  rw [← List.map_take, List.take_range, Nat.min_eq_left hK]

@[simp] theorem advanceRead_buf (s : StreamState) :
    (advanceRead s).buf = s.buf := rfl

@[simp] theorem advanceRead_writePos (s : StreamState) :
    (advanceRead s).writePos = s.writePos := rfl

@[simp] theorem advanceRead_isStreaming (s : StreamState) :
    (advanceRead s).isStreaming = s.isStreaming := rfl

theorem advanceRead_readPos (s : StreamState) (h : WF s) :
    (advanceRead s).readPos =
      (s.readPos + STREAMING_CHUNK_SIZE) % STREAMING_BUFFER_SIZE := by
  obtain ⟨hw, hr⟩ := h
  show (if STREAMING_BUFFER_SIZE ≤ _ then _ else _) = _
  unfold STREAMING_CHUNK_SIZE STREAMING_BUFFER_SIZE at *
  split <;> split <;> omega

theorem advanceRead_WF (s : StreamState) (h : WF s) : WF (advanceRead s) := by
  refine ⟨h.1, ?_⟩
  rw [advanceRead_readPos s h]
  exact Nat.mod_lt _ STREAMING_BUFFER_SIZE_pos

theorem availableData_advanceRead (s : StreamState) (h : WF s)
    (hK : STREAMING_CHUNK_SIZE ≤ availableData s) :
    availableData (advanceRead s) = availableData s - STREAMING_CHUNK_SIZE := by
  have h2 := availableData_mod (advanceRead s) (advanceRead_WF s h)
  rw [advanceRead_readPos s h, advanceRead_writePos] at h2
  have h3 := writePos_eq_mod s h
  have hle := availableData_le s h
  obtain ⟨hw, hr⟩ := h
  rw [h2, h3]
  unfold STREAMING_CHUNK_SIZE STREAMING_BUFFER_SIZE at *
  omega

theorem contents_advanceRead (s : StreamState) (h : WF s)
    (hK : STREAMING_CHUNK_SIZE ≤ availableData s) :
    contents (advanceRead s) = (contents s).drop STREAMING_CHUNK_SIZE := by
  unfold contents
  rw [availableData_advanceRead s h hK, advanceRead_readPos s h, advanceRead_buf,
      ← List.map_drop, range_drop _ _ hK, List.map_map]
  apply List.map_congr_left
  intro j hj
  simp only [Function.comp_apply]
  rw [Nat.mod_add_mod]
  congr 2
  omega

/-- The drain loop: with fuel at least `availableData s` it runs until the
guard fails, removing the longest chunk-aligned prefix of the queue and
handing it to the renderer in `STREAMING_CHUNK_SIZE` pieces. -/
theorem drainLoop_spec (fuel : Nat) :
    ∀ s : StreamState, WF s → availableData s ≤ fuel →
    WF (drainLoop fuel s).1 ∧
    (drainLoop fuel s).2.flatten ++ contents (drainLoop fuel s).1 = contents s ∧
    availableData (drainLoop fuel s).1 < STREAMING_CHUNK_SIZE ∧
    (drainLoop fuel s).1.isStreaming = s.isStreaming ∧
    (drainLoop fuel s).1.writePos = s.writePos ∧
    (∀ c ∈ (drainLoop fuel s).2, c.length = STREAMING_CHUNK_SIZE) := by
  induction fuel with
  | zero =>
    intro s hWF h0
    refine ⟨hWF, by simp [drainLoop], ?_, rfl, rfl, by simp [drainLoop]⟩
    show availableData s < STREAMING_CHUNK_SIZE
    unfold STREAMING_CHUNK_SIZE
    omega
  | succ fuel ih =>
    intro s hWF hfuel
    by_cases hg : STREAMING_CHUNK_SIZE ≤ availableData s
    · have hstep : drainLoop (fuel + 1) s =
        ((drainLoop fuel (advanceRead s)).1,
         readChunk s :: (drainLoop fuel (advanceRead s)).2) := by
        rw [drainLoop, if_pos hg]
      have hWF2 := advanceRead_WF s hWF
      have hav := availableData_advanceRead s hWF hg
      have hKpos : 0 < STREAMING_CHUNK_SIZE := by unfold STREAMING_CHUNK_SIZE; omega
      obtain ⟨ih1, ih2, ih3, ih4, ih5, ih6⟩ :=
        ih (advanceRead s) hWF2 (by omega)
      rw [hstep]
      refine ⟨ih1, ?_, ih3, by rw [ih4, advanceRead_isStreaming],
        by rw [ih5, advanceRead_writePos], ?_⟩
      · rw [List.flatten_cons, List.append_assoc, ih2,
          contents_advanceRead s hWF hg, readChunk_take s hWF hg,
          List.take_append_drop]
      · intro c hc
        rcases List.mem_cons.mp hc with rfl | hc2
        · exact readChunk_length s hWF
        · exact ih6 c hc2
    · have hstep : drainLoop (fuel + 1) s = (s, []) := by
        rw [drainLoop, if_neg hg]
      rw [hstep]
      exact ⟨hWF, by simp, by show availableData s < STREAMING_CHUNK_SIZE; omega,
        rfl, rfl, by simp⟩

/-! ### The push and finish operations, assembled -/

theorem drainLoop_stop (fuel : Nat) (s : StreamState)
    (hg : availableData s < STREAMING_CHUNK_SIZE) :
    drainLoop fuel s = (s, []) := by
  cases fuel with
  | zero => rfl
  | succ fuel => rw [drainLoop, if_neg (by omega)]

theorem drainLoop_step (fuel : Nat) (s : StreamState)
    (hg : STREAMING_CHUNK_SIZE ≤ availableData s) :
    drainLoop (fuel + 1) s =
      ((drainLoop fuel (advanceRead s)).1,
       readChunk s :: (drainLoop fuel (advanceRead s)).2) := by
  rw [drainLoop, if_pos hg]

theorem addStreaming_accept_eq (s : StreamState) (data : List Nat)
    (hstr : s.isStreaming = true) (hacc : data.length ≤ availableSpace s) :
    addStreamingAudioChunk s data =
      (true, (drainLoop (availableData (ringWrite s data)) (ringWrite s data)).1,
             (drainLoop (availableData (ringWrite s data)) (ringWrite s data)).2) := by
  unfold addStreamingAudioChunk
  rw [if_neg (by simp [hstr]), if_neg (by omega)]

theorem addStreaming_notStreaming_eq (s : StreamState) (data : List Nat)
    (hstr : s.isStreaming = false) :
    addStreamingAudioChunk s data = (false, s, []) := by
  unfold addStreamingAudioChunk
  rw [if_pos hstr]

theorem addStreaming_reject_eq (s : StreamState) (data : List Nat)
    (hfull : availableSpace s < data.length) :
    addStreamingAudioChunk s data = (false, s, []) := by
  unfold addStreamingAudioChunk
  by_cases hstr : s.isStreaming = false
  · rw [if_pos hstr]
  · rw [if_neg hstr, if_pos hfull]

/-- An accepted push renders only whole chunks, leaves fewer than one chunk
queued, and appends the pushed bytes at the tail of the FIFO. -/
theorem addStreaming_spec (s : StreamState) (data : List Nat) (h : WF s)
    (hstr : s.isStreaming = true) (hacc : data.length ≤ availableSpace s) :
    (addStreamingAudioChunk s data).1 = true ∧
    WF (addStreamingAudioChunk s data).2.1 ∧
    ((addStreamingAudioChunk s data).2.2.flatten ++
        contents (addStreamingAudioChunk s data).2.1 = contents s ++ data) ∧
    availableData (addStreamingAudioChunk s data).2.1 < STREAMING_CHUNK_SIZE ∧
    (addStreamingAudioChunk s data).2.1.isStreaming = true ∧
    (∀ c ∈ (addStreamingAudioChunk s data).2.2,
      c.length = STREAMING_CHUNK_SIZE) := by
  have hlen : data.length ≤ STREAMING_BUFFER_SIZE := by
    have := availableSpace_le s h
    unfold STREAMING_BUFFER_SIZE at *
    omega
  have hWF1 := ringWrite_WF s data h hlen
  obtain ⟨d1, d2, d3, d4, d5, d6⟩ :=
    drainLoop_spec (availableData (ringWrite s data)) (ringWrite s data) hWF1 (le_refl _)
  rw [addStreaming_accept_eq s data hstr hacc]
  refine ⟨rfl, d1, ?_, d3, by rw [d4, ringWrite_isStreaming, hstr], d6⟩
  show (drainLoop _ _).2.flatten ++ contents (drainLoop _ _).1 = _
  rw [d2, contents_ringWrite s data h hacc]

theorem addStreaming_WF (s : StreamState) (data : List Nat) (h : WF s) :
    WF (addStreamingAudioChunk s data).2.1 := by
  by_cases hstr : s.isStreaming = false
  · rw [addStreaming_notStreaming_eq s data hstr]
    exact h
  · have hstr' : s.isStreaming = true := by
      cases hb : s.isStreaming
      · exact absurd hb hstr
      · rfl
    by_cases hacc : data.length ≤ availableSpace s
    · exact (addStreaming_spec s data h hstr' hacc).2.1
    · rw [addStreaming_reject_eq s data (by omega)]
      exact h

theorem finish_eq (s : StreamState) (hstr : s.isStreaming = true) :
    finishStreamingPlayback s =
      ({ s with isStreaming := false, writePos := 0, readPos := 0 },
       finishFlush s) := by
  unfold finishStreamingPlayback
  rw [if_neg (by simp [hstr])]

theorem finish_WF (s : StreamState) (h : WF s) :
    WF (finishStreamingPlayback s).1 := by
  unfold finishStreamingPlayback
  split
  · exact h
  · exact ⟨STREAMING_BUFFER_SIZE_pos, STREAMING_BUFFER_SIZE_pos⟩

theorem finishFlush_length (s : StreamState) : (finishFlush s).length ≤ 1 := by
  unfold finishFlush
  split <;> simp

/-- The final flush returns exactly the queued bytes, in order. -/
theorem finishFlush_flatten (s : StreamState) (h : WF s) :
    (finishFlush s).flatten = contents s := by
  obtain ⟨hw, hr⟩ := h
  unfold finishFlush
  by_cases h0 : 0 < availableData s
  · rw [if_pos h0, List.flatten_cons, List.flatten_nil, List.append_nil]
    by_cases hc : s.readPos ≤ s.writePos
    · rw [if_pos hc]
      unfold contents
      apply List.map_congr_left
      intro j hj
      rw [List.mem_range] at hj
      rw [Nat.mod_eq_of_lt (by
        rw [availableData, if_pos hc] at hj
        omega)]
    · rw [if_neg hc]
      have havail : availableData s
          = (STREAMING_BUFFER_SIZE - s.readPos) + s.writePos := by
        rw [availableData, if_neg hc]
      unfold contents
      conv_rhs => rw [havail, List.range_add, List.map_append, List.map_map]
      congr 1
      · apply List.map_congr_left
        intro j hj
        rw [List.mem_range] at hj
        rw [Nat.mod_eq_of_lt (by omega)]
      · apply List.map_congr_left
        intro j hj
        rw [List.mem_range] at hj
        simp only [Function.comp_apply]
        rw [show s.readPos + ((STREAMING_BUFFER_SIZE - s.readPos) + j)
              = STREAMING_BUFFER_SIZE + j by omega,
            Nat.add_mod_left, Nat.mod_eq_of_lt (by omega)]
  · rw [if_neg h0]
    have hA : availableData s = 0 := by omega
    rw [List.flatten_nil]
    unfold contents
    rw [hA]
    rfl

/-- Cursor well-formedness holds in every reachable streaming state. -/
theorem reachable_WF (s : StreamState) (h : StreamReachable s) : WF s := by
  induction h with
  | start s => exact ⟨STREAMING_BUFFER_SIZE_pos, STREAMING_BUFFER_SIZE_pos⟩
  | push s data _ ih => exact addStreaming_WF s data ih
  | finish s _ ih => exact finish_WF s ih

/-! ### Sequences of pushes -/

/-- A sequence of pushes: final state, all chunks handed to the renderer in
order, and the accepted payloads in order. -/
def runPushes (s : StreamState) :
    List (List Nat) → StreamState × List (List Nat) × List (List Nat)
  | [] => (s, [], [])
  | d :: ds =>
    ((runPushes (addStreamingAudioChunk s d).2.1 ds).1,
     (addStreamingAudioChunk s d).2.2 ++
       (runPushes (addStreamingAudioChunk s d).2.1 ds).2.1,
     (if (addStreamingAudioChunk s d).1 then [d] else []) ++
       (runPushes (addStreamingAudioChunk s d).2.1 ds).2.2)

theorem runPushes_spec (ds : List (List Nat)) :
    ∀ s : StreamState, WF s → s.isStreaming = true →
    WF (runPushes s ds).1 ∧ (runPushes s ds).1.isStreaming = true ∧
    (runPushes s ds).2.1.flatten ++ contents (runPushes s ds).1
      = contents s ++ (runPushes s ds).2.2.flatten := by
  induction ds with
  | nil => exact fun s h hstr => ⟨h, hstr, by simp [runPushes]⟩
  | cons d ds ih =>
    intro s h hstr
    have hcons : runPushes s (d :: ds) =
        ((runPushes (addStreamingAudioChunk s d).2.1 ds).1,
         (addStreamingAudioChunk s d).2.2 ++
           (runPushes (addStreamingAudioChunk s d).2.1 ds).2.1,
         (if (addStreamingAudioChunk s d).1 then [d] else []) ++
           (runPushes (addStreamingAudioChunk s d).2.1 ds).2.2) := rfl
    by_cases hacc : d.length ≤ availableSpace s
    · obtain ⟨a1, a2, a3, a4, a5, a6⟩ := addStreaming_spec s d h hstr hacc
      obtain ⟨i1, i2, i3⟩ := ih (addStreamingAudioChunk s d).2.1 a2 a5
      rw [hcons]
      refine ⟨i1, i2, ?_⟩
      show ((addStreamingAudioChunk s d).2.2 ++ _).flatten ++ contents _ = _
      rw [List.flatten_append, List.append_assoc, i3, a1, ← List.append_assoc, a3,
        List.append_assoc]
      show _ = contents s ++ (([d] : List (List Nat)) ++ _).flatten
      rw [List.flatten_append]
      simp
    · have hrej := addStreaming_reject_eq s d (by omega)
      have hrej1 : (addStreamingAudioChunk s d).1 = false := by rw [hrej]
      have hrej2 : (addStreamingAudioChunk s d).2.1 = s := by rw [hrej]
      have hrej3 : (addStreamingAudioChunk s d).2.2 = [] := by rw [hrej]
      obtain ⟨i1, i2, i3⟩ := ih s h hstr
      rw [hcons, hrej1, hrej2, hrej3]
      refine ⟨i1, i2, ?_⟩
      rw [if_neg (by simp), List.nil_append, List.nil_append, i3]

theorem contents_start (s : StreamState) :
    contents (startStreamingPlayback s) = [] := rfl

theorem availableSpace_start (s : StreamState) :
    availableSpace (startStreamingPlayback s) = STREAMING_BUFFER_SIZE - 1 := rfl

theorem finishFlush_length_pos (s : StreamState) (h0 : 0 < availableData s) :
    (finishFlush s).length = 1 := by
  unfold finishFlush
  rw [if_pos h0]
  rfl

/-- A concrete idle `AudioManager` streaming state used for concrete runs. -/
def sInit : StreamState :=
  { buf := fun _ => 0, writePos := 0, readPos := 0, isStreaming := false }

/-! ### Claim theorems about the streaming ring buffer -/

/-- C1: in every reachable streaming state the byte count available to
read, computed from the cursors mod the capacity, is at most capacity − 1;
for any sequence of pushes after `startStreamingPlayback` the bytes handed
to the renderer by the drain steps plus the final flush are exactly the
accepted pushed bytes, in FIFO order; in particular a single push of any
`x` with `x.length < capacity` is accepted, and draining (drain chunks
plus final flush) yields exactly `x`. -/
theorem ring_buffer_invariant_fifo (s0 s : StreamState)
    (pushes : List (List Nat)) (x : List Nat) (hreach : StreamReachable s)
    (hx : x.length < STREAMING_BUFFER_SIZE) :
    availableData s ≤ STREAMING_BUFFER_SIZE - 1 ∧
    ((runPushes (startStreamingPlayback s0) pushes).2.1.flatten ++
        (finishStreamingPlayback
          (runPushes (startStreamingPlayback s0) pushes).1).2.flatten
      = (runPushes (startStreamingPlayback s0) pushes).2.2.flatten) ∧
    (addStreamingAudioChunk (startStreamingPlayback s0) x).1 = true ∧
    ((addStreamingAudioChunk (startStreamingPlayback s0) x).2.2.flatten ++
        (finishStreamingPlayback
          (addStreamingAudioChunk (startStreamingPlayback s0) x).2.1).2.flatten
      = x) := by
  have hWF0 : WF (startStreamingPlayback s0) :=
    ⟨STREAMING_BUFFER_SIZE_pos, STREAMING_BUFFER_SIZE_pos⟩
  have hstr0 : (startStreamingPlayback s0).isStreaming = true := rfl
  have hacc : x.length ≤ availableSpace (startStreamingPlayback s0) := by
    rw [availableSpace_start]
    unfold STREAMING_BUFFER_SIZE at *
    omega
  obtain ⟨a1, a2, a3, a4, a5, a6⟩ := addStreaming_spec _ x hWF0 hstr0 hacc
  refine ⟨availableData_le s (reachable_WF s hreach), ?_, a1, ?_⟩
  · obtain ⟨r1, r2, r3⟩ := runPushes_spec pushes (startStreamingPlayback s0) hWF0 hstr0
    rw [finish_eq _ r2]
    show _ ++ (finishFlush _).flatten = _
    rw [finishFlush_flatten _ r1, r3, contents_start, List.nil_append]
  · rw [finish_eq _ a5]
    show _ ++ (finishFlush _).flatten = _
    rw [finishFlush_flatten _ a2, a3, contents_start, List.nil_append]

/-- Witness for C1 at concrete inputs. -/
theorem ring_buffer_invariant_fifo_witness :
    ([5, 6, 7] : List Nat).length < STREAMING_BUFFER_SIZE ∧
    (availableData (startStreamingPlayback sInit) ≤ STREAMING_BUFFER_SIZE - 1 ∧
     ((runPushes (startStreamingPlayback sInit) [[1, 2], [3]]).2.1.flatten ++
         (finishStreamingPlayback
           (runPushes (startStreamingPlayback sInit) [[1, 2], [3]]).1).2.flatten
       = (runPushes (startStreamingPlayback sInit) [[1, 2], [3]]).2.2.flatten) ∧
     (addStreamingAudioChunk (startStreamingPlayback sInit) [5, 6, 7]).1 = true ∧
     ((addStreamingAudioChunk (startStreamingPlayback sInit) [5, 6, 7]).2.2.flatten ++
         (finishStreamingPlayback
           (addStreamingAudioChunk (startStreamingPlayback sInit)
             [5, 6, 7]).2.1).2.flatten
       = [5, 6, 7])) :=
  ⟨by decide,
   ring_buffer_invariant_fifo sInit (startStreamingPlayback sInit)
     [[1, 2], [3]] [5, 6, 7] (StreamReachable.start sInit) (by decide)⟩

/-- C5: with streaming active, a push returns rejected exactly when the
pushed byte count exceeds the free space (which equals capacity − 1 −
available bytes), and a rejected push leaves the buffer and both cursors
completely unchanged, rendering nothing. -/
theorem push_rejected_iff (s : StreamState) (data : List Nat)
    (hreach : StreamReachable s) (hstr : s.isStreaming = true) :
    ((addStreamingAudioChunk s data).1 = false ↔
      availableSpace s < data.length) ∧
    availableSpace s = STREAMING_BUFFER_SIZE - 1 - availableData s ∧
    ((addStreamingAudioChunk s data).1 = false →
      (addStreamingAudioChunk s data).2.1 = s ∧
      (addStreamingAudioChunk s data).2.2 = []) := by
  have hWF := reachable_WF s hreach
  refine ⟨⟨?_, ?_⟩, availableSpace_eq s hWF, ?_⟩
  · intro hfail
    by_contra hcon
    push_neg at hcon
    have h1 := (addStreaming_spec s data hWF hstr hcon).1
    rw [h1] at hfail
    exact absurd hfail (by simp)
  · intro hlt
    rw [addStreaming_reject_eq s data hlt]
  · intro hfail
    by_cases hacc : data.length ≤ availableSpace s
    · have h1 := (addStreaming_spec s data hWF hstr hacc).1
      rw [h1] at hfail
      exact absurd hfail (by simp)
    · rw [addStreaming_reject_eq s data (by omega)]
      exact ⟨rfl, rfl⟩

/-- Witness for C5 at concrete inputs. -/
theorem push_rejected_iff_witness :
    (startStreamingPlayback sInit).isStreaming = true ∧
    (((addStreamingAudioChunk (startStreamingPlayback sInit) [1]).1 = false ↔
        availableSpace (startStreamingPlayback sInit) < ([1] : List Nat).length) ∧
      availableSpace (startStreamingPlayback sInit) =
        STREAMING_BUFFER_SIZE - 1 - availableData (startStreamingPlayback sInit) ∧
      ((addStreamingAudioChunk (startStreamingPlayback sInit) [1]).1 = false →
        (addStreamingAudioChunk (startStreamingPlayback sInit) [1]).2.1 =
          startStreamingPlayback sInit ∧
        (addStreamingAudioChunk (startStreamingPlayback sInit) [1]).2.2 = [])) :=
  ⟨rfl, push_rejected_iff _ [1] (StreamReachable.start sInit) rfl⟩

/-- C10: all streaming-playback operations keep both cursors strictly below
the capacity `STREAMING_BUFFER_SIZE = 32768`. -/
theorem streaming_cursors_in_range (s : StreamState) (h : StreamReachable s) :
    s.writePos < STREAMING_BUFFER_SIZE ∧ s.readPos < STREAMING_BUFFER_SIZE :=
  reachable_WF s h

/-- Witness for C10 at a concrete reachable state. -/
theorem streaming_cursors_in_range_witness :
    (startStreamingPlayback sInit).writePos < STREAMING_BUFFER_SIZE ∧
    (startStreamingPlayback sInit).readPos < STREAMING_BUFFER_SIZE :=
  streaming_cursors_in_range (startStreamingPlayback sInit)
    (StreamReachable.start sInit)

/-! ### The concrete chunked-drain scenario (C6) -/

/-- A fresh streaming episode. -/
def demoStart : StreamState := startStreamingPlayback sInit

/-- Push of 2000 bytes into the fresh episode. -/
def demoPush1 : Bool × StreamState × List (List Nat) :=
  addStreamingAudioChunk demoStart (List.replicate 2000 1)

/-- Push of 1300 further bytes. -/
def demoPush2 : Bool × StreamState × List (List Nat) :=
  addStreamingAudioChunk demoPush1.2.1 (List.replicate 1300 2)

/-- The final flush. -/
def demoFinish : StreamState × List (List Nat) :=
  finishStreamingPlayback demoPush2.2.1

/-- C6: an accepted push drains whole `STREAMING_CHUNK_SIZE`-byte chunks
while at least one chunk is available and stops below one chunk;
`finishStreamingPlayback` hands all remaining bytes to the renderer in at
most one call.  Concretely (chunk size 3200): push(2000 bytes) drains
nothing; a following push(1300 bytes) drains exactly one 3200-byte chunk
leaving 100 bytes; finish flushes those 100 bytes in exactly one call. -/
theorem chunked_drain_scenario :
    (∀ s data, StreamReachable s → s.isStreaming = true →
      data.length ≤ availableSpace s →
      (∀ c ∈ (addStreamingAudioChunk s data).2.2,
        c.length = STREAMING_CHUNK_SIZE) ∧
      availableData (addStreamingAudioChunk s data).2.1 <
        STREAMING_CHUNK_SIZE) ∧
    (∀ s, StreamReachable s → s.isStreaming = true →
      (finishStreamingPlayback s).2.length ≤ 1 ∧
      (finishStreamingPlayback s).2.flatten.length = availableData s) ∧
    (demoPush1.1 = true ∧ demoPush1.2.2 = [] ∧
     demoPush2.1 = true ∧ demoPush2.2.2.length = 1 ∧
     demoPush2.2.2.flatten.length = STREAMING_CHUNK_SIZE ∧
     availableData demoPush2.2.1 = 100 ∧
     demoFinish.2.length = 1 ∧ demoFinish.2.flatten.length = 100) := by
  refine ⟨?_, ?_, ?_⟩
  · intro s data hreach hstr hacc
    have hWF := reachable_WF s hreach
    obtain ⟨a1, a2, a3, a4, a5, a6⟩ := addStreaming_spec s data hWF hstr hacc
    exact ⟨a6, a4⟩
  · intro s hreach hstr
    have hWF := reachable_WF s hreach
    rw [finish_eq _ hstr]
    constructor
    · show (finishFlush s).length ≤ 1
      exact finishFlush_length s
    · show (finishFlush s).flatten.length = _
      rw [finishFlush_flatten _ hWF, contents_length]
  · -- the concrete scenario
    have hWF0 : WF demoStart :=
      ⟨STREAMING_BUFFER_SIZE_pos, STREAMING_BUFFER_SIZE_pos⟩
    have hstr0 : demoStart.isStreaming = true := rfl
    have hA0 : availableData demoStart = 0 := rfl
    have hsp0 : availableSpace demoStart = STREAMING_BUFFER_SIZE - 1 := rfl
    have hacc1 : (List.replicate 2000 1).length ≤ availableSpace demoStart := by
      rw [List.length_replicate, hsp0]
      unfold STREAMING_BUFFER_SIZE
      omega
    have hA1w : availableData (ringWrite demoStart (List.replicate 2000 1)) = 2000 := by
      rw [availableData_ringWrite demoStart _ hWF0 hacc1, hA0, List.length_replicate]
    have he1 : demoPush1 = (true, ringWrite demoStart (List.replicate 2000 1), []) := by
      show addStreamingAudioChunk demoStart (List.replicate 2000 1) = _
      rw [addStreaming_accept_eq demoStart _ hstr0 hacc1,
          drainLoop_stop _ _ (by rw [hA1w]; unfold STREAMING_CHUNK_SIZE; omega)]
    have hs1 : demoPush1.2.1 = ringWrite demoStart (List.replicate 2000 1) := by
      rw [he1]
    have hWF1 : WF demoPush1.2.1 := by
      rw [hs1]
      exact ringWrite_WF _ _ hWF0
        (by rw [List.length_replicate]; unfold STREAMING_BUFFER_SIZE; omega)
    have hstr1 : demoPush1.2.1.isStreaming = true := by
      rw [hs1, ringWrite_isStreaming]
      exact hstr0
    have hA1 : availableData demoPush1.2.1 = 2000 := by
      rw [hs1, hA1w]
    have hsp1 : availableSpace demoPush1.2.1 = 30767 := by
      rw [availableSpace_eq _ hWF1, hA1]
      unfold STREAMING_BUFFER_SIZE
      omega
    have hacc2 : (List.replicate 1300 2).length ≤ availableSpace demoPush1.2.1 := by
      rw [List.length_replicate, hsp1]
      omega
    have hA2w : availableData (ringWrite demoPush1.2.1 (List.replicate 1300 2)) = 3300 := by
      rw [availableData_ringWrite _ _ hWF1 hacc2, hA1, List.length_replicate]
    have hWF2w : WF (ringWrite demoPush1.2.1 (List.replicate 1300 2)) :=
      ringWrite_WF _ _ hWF1
        (by rw [List.length_replicate]; unfold STREAMING_BUFFER_SIZE; omega)
    have hg2 : STREAMING_CHUNK_SIZE ≤
        availableData (ringWrite demoPush1.2.1 (List.replicate 1300 2)) := by
      rw [hA2w]
      unfold STREAMING_CHUNK_SIZE
      omega
    have hdrain2 : drainLoop
        (availableData (ringWrite demoPush1.2.1 (List.replicate 1300 2)))
        (ringWrite demoPush1.2.1 (List.replicate 1300 2))
        = (advanceRead (ringWrite demoPush1.2.1 (List.replicate 1300 2)),
           [readChunk (ringWrite demoPush1.2.1 (List.replicate 1300 2))]) := by
      rw [hA2w, show (3300 : Nat) = 3299 + 1 by omega, drainLoop_step 3299 _ hg2,
          drainLoop_stop 3299 _ (by
            rw [availableData_advanceRead _ hWF2w hg2, hA2w]
            unfold STREAMING_CHUNK_SIZE
            omega)]
    have he2 : demoPush2 =
        (true, advanceRead (ringWrite demoPush1.2.1 (List.replicate 1300 2)),
         [readChunk (ringWrite demoPush1.2.1 (List.replicate 1300 2))]) := by
      show addStreamingAudioChunk demoPush1.2.1 (List.replicate 1300 2) = _
      rw [addStreaming_accept_eq _ _ hstr1 hacc2, hdrain2]
    have hs2 : demoPush2.2.1 =
        advanceRead (ringWrite demoPush1.2.1 (List.replicate 1300 2)) := by
      rw [he2]
    have hA2 : availableData demoPush2.2.1 = 100 := by
      rw [hs2, availableData_advanceRead _ hWF2w hg2, hA2w]
      unfold STREAMING_CHUNK_SIZE
      omega
    have hWF2 : WF demoPush2.2.1 := by
      rw [hs2]
      exact advanceRead_WF _ hWF2w
    have hstr2 : demoPush2.2.1.isStreaming = true := by
      rw [hs2, advanceRead_isStreaming, ringWrite_isStreaming]
      exact hstr1
    have hfin : demoFinish =
        ({ demoPush2.2.1 with isStreaming := false, writePos := 0, readPos := 0 },
         finishFlush demoPush2.2.1) := by
      show finishStreamingPlayback demoPush2.2.1 = _
      exact finish_eq _ hstr2
    have h22 : demoPush2.2.2 =
        [readChunk (ringWrite demoPush1.2.1 (List.replicate 1300 2))] := by
      rw [he2]
    have hf2 : demoFinish.2 = finishFlush demoPush2.2.1 := by
      rw [hfin]
    refine ⟨by rw [he1], by rw [he1], by rw [he2], ?_, ?_, hA2, ?_, ?_⟩
    · rw [h22]
      rfl
    · rw [h22, List.flatten_cons, List.flatten_nil, List.append_nil]
      exact readChunk_length _ hWF2w
    · rw [hf2]
      exact finishFlush_length_pos _ (by rw [hA2]; omega)
    · rw [hf2, finishFlush_flatten _ hWF2, contents_length, hA2]

/-- Witness for C6 at concrete inputs. -/
theorem chunked_drain_scenario_witness :
    ([] : List Nat).length ≤ availableSpace demoStart ∧
    ((∀ c ∈ (addStreamingAudioChunk demoStart ([] : List Nat)).2.2,
        c.length = STREAMING_CHUNK_SIZE) ∧
      availableData (addStreamingAudioChunk demoStart ([] : List Nat)).2.1 <
        STREAMING_CHUNK_SIZE) ∧
    ((finishStreamingPlayback demoStart).2.length ≤ 1 ∧
      (finishStreamingPlayback demoStart).2.flatten.length =
        availableData demoStart) :=
  ⟨by decide,
   chunked_drain_scenario.1 demoStart [] (StreamReachable.start sInit) rfl
     (by decide),
   chunked_drain_scenario.2.1 demoStart (StreamReachable.start sInit) rfl⟩

/-! ## The recording buffer (`AudioManager` recording API)

`app_main` constructs `AudioManager(SAMPLE_RATE, 10, 32)`, so the recording
buffer holds `sample_rate × 10` samples. -/

/-- `SAMPLE_RATE` in `app_main` (16 kHz). -/
def SAMPLE_RATE : Nat := 16000

/-- `recording_buffer_size = sample_rate * recording_duration_sec` samples. -/
def RECORDING_BUFFER_SIZE : Nat := SAMPLE_RATE * 10

/-- The `rec_len > SAMPLE_RATE / 4` floor used to accept an utterance. -/
def MIN_UTTERANCE_SAMPLES : Nat := SAMPLE_RATE / 4

/-- The recording-related fields of `AudioManager`: the `is_recording` flag
and `recording_length` in samples (contents are irrelevant to the claims,
lengths suffice). -/
structure RecorderState where
  isRecording : Bool
  recordingLength : Nat
deriving DecidableEq

/-- `AudioManager::addRecordingData`: refuses while not recording (the
`recording_buffer == nullptr` case does not arise: the buffer is allocated
at init), refuses without writing when the append would exceed the
capacity, otherwise appends. -/
def addRecordingData (r : RecorderState) (samples : Nat) :
    RecorderState × Bool :=
  if r.isRecording = false then (r, false)
  else if RECORDING_BUFFER_SIZE < r.recordingLength + samples then (r, false)
  else ({ r with recordingLength := r.recordingLength + samples }, true)

/-- `AudioManager::isRecordingBufferFull`. -/
def isRecordingBufferFull (r : RecorderState) : Bool :=
  decide (RECORDING_BUFFER_SIZE ≤ r.recordingLength)

/-- `AudioManager::startRecording`: activates and zeroes the length. -/
def startRecording : RecorderState :=
  { isRecording := true, recordingLength := 0 }

/-- `AudioManager::stopRecording`. -/
def stopRecording (r : RecorderState) : RecorderState :=
  { r with isRecording := false }

/-- C8 as stated is false on the code: an inactive append returns the
failure result `false` (the same result as a full buffer), not the ok
result `true`; it does leave the state unchanged. -/
theorem inactive_append_counterexample :
    (addRecordingData { isRecording := false, recordingLength := 5 } 160).2 ≠ true ∧
    (addRecordingData { isRecording := false, recordingLength := 5 } 160).1 =
      { isRecording := false, recordingLength := 5 } := by decide

/-- C8 (amended): `addRecordingData` while inactive is a no-op, but it
returns the failure result `false` rather than ok. -/
theorem inactive_append_noop (r : RecorderState) (samples : Nat)
    (h : r.isRecording = false) :
    addRecordingData r samples = (r, false) := by
  unfold addRecordingData
  rw [if_pos h]

/-- Witness for the amended C8. -/
theorem inactive_append_noop_witness :
    ({ isRecording := false, recordingLength := 5 } : RecorderState).isRecording
      = false ∧
    addRecordingData { isRecording := false, recordingLength := 5 } 160 =
      ({ isRecording := false, recordingLength := 5 }, false) :=
  ⟨rfl, inactive_append_noop { isRecording := false, recordingLength := 5 } 160 rfl⟩

/-! ## The VAD silence debouncer (`app_main`)

The debouncer is the pair of globals `vad_speech_detected` (the "had
speech" latch) and `vad_silence_frames` (the consecutive-silence counter),
updated per frame from the `vad_process` classification. -/

/-- One `vad_process` classification (`VAD_SPEECH` / `VAD_SILENCE`). -/
inductive VadClass where
  | speech
  | silence
deriving DecidableEq

/-- `VAD_SILENCE_FRAMES_REQUIRED = 20` (about 600 ms). -/
def VAD_SILENCE_FRAMES_REQUIRED : Nat := 20

/-- The debouncer state. -/
structure Debounce where
  vadSpeechDetected : Bool
  vadSilenceFrames : Nat
deriving DecidableEq

/-- One debouncer update (`app_main` VAD handling): SPEECH sets the latch
and zeroes the counter; SILENCE increments the counter only when the latch
is set; the returned flag is the "utterance ended" edge, raised when the
counter reaches the threshold. -/
def debStep (d : Debounce) (c : VadClass) : Debounce × Bool :=
  match c with
  | .speech => ({ vadSpeechDetected := true, vadSilenceFrames := 0 }, false)
  | .silence =>
    if d.vadSpeechDetected = true then
      ({ d with vadSilenceFrames := d.vadSilenceFrames + 1 },
       decide (VAD_SILENCE_FRAMES_REQUIRED ≤ d.vadSilenceFrames + 1))
    else (d, false)

/-- The debouncer state right after a reset. -/
def debReset : Debounce :=
  { vadSpeechDetected := false, vadSilenceFrames := 0 }

/-- Run the debouncer over a frame sequence; the flag records whether the
edge fired at any frame. -/
def debRun (d : Debounce) : List VadClass → Debounce × Bool
  | [] => (d, false)
  | c :: cs =>
    ((debRun (debStep d c).1 cs).1,
     (debStep d c).2 || (debRun (debStep d c).1 cs).2)

/-- A SPEECH frame at index `j` followed immediately by
`VAD_SILENCE_FRAMES_REQUIRED` SILENCE frames. -/
def SpeechWindow (cs : List VadClass) (j : Nat) : Prop :=
  j + VAD_SILENCE_FRAMES_REQUIRED < cs.length ∧
  cs.getD j .silence = .speech ∧
  ∀ i, j < i → i ≤ j + VAD_SILENCE_FRAMES_REQUIRED →
    cs.getD i .speech = .silence

/-- Characterisation of the sequences on which the debouncer fires when
started from state `d`. -/
def FiresFrom (d : Debounce) (cs : List VadClass) : Prop :=
  (∃ j, SpeechWindow cs j) ∨
  (d.vadSpeechDetected = true ∧
    ∃ m, 1 ≤ m ∧ m ≤ cs.length ∧
      VAD_SILENCE_FRAMES_REQUIRED ≤ d.vadSilenceFrames + m ∧
      ∀ i, i < m → cs.getD i .speech = .silence)

theorem debRun_cons (d : Debounce) (c : VadClass) (cs : List VadClass) :
    debRun d (c :: cs) =
      ((debRun (debStep d c).1 cs).1,
       (debStep d c).2 || (debRun (debStep d c).1 cs).2) := rfl

theorem debStep_speech (d : Debounce) :
    debStep d .speech =
      ({ vadSpeechDetected := true, vadSilenceFrames := 0 }, false) := rfl

theorem debStep_silence_false (d : Debounce) (h : d.vadSpeechDetected = false) :
    debStep d .silence = (d, false) := by
  unfold debStep
  rw [if_neg (by rw [h]; simp)]

theorem debStep_silence_true (d : Debounce) (h : d.vadSpeechDetected = true) :
    debStep d .silence =
      ({ d with vadSilenceFrames := d.vadSilenceFrames + 1 },
       decide (VAD_SILENCE_FRAMES_REQUIRED ≤ d.vadSilenceFrames + 1)) := by
  unfold debStep
  rw [if_pos h]

theorem firesFrom_speech (d : Debounce) (cs : List VadClass) :
    FiresFrom d (.speech :: cs) ↔
      FiresFrom { vadSpeechDetected := true, vadSilenceFrames := 0 } cs := by
  unfold FiresFrom SpeechWindow VAD_SILENCE_FRAMES_REQUIRED
  constructor
  · rintro (⟨j, h1, h2, h3⟩ | ⟨_, m, hm1, _, _, hm4⟩)
    · cases j with
      | zero =>
        right
        refine ⟨rfl, 20, by omega, by simp at h1; omega, by omega, ?_⟩
        intro i hi
        have hx := h3 (i + 1) (by omega) (by omega)
        rwa [List.getD_cons_succ] at hx
      | succ k =>
        left
        refine ⟨k, by simp at h1 ⊢; omega, by rwa [List.getD_cons_succ] at h2, ?_⟩
        intro i hi1 hi2
        have hx := h3 (i + 1) (by omega) (by omega)
        rwa [List.getD_cons_succ] at hx
    · exfalso
      have hx := hm4 0 (by omega)
      rw [List.getD_cons_zero] at hx
      exact absurd hx (by decide)
  · rintro (⟨j, h1, h2, h3⟩ | ⟨_, m, hm1, hm2, hm3, hm4⟩)
    · left
      refine ⟨j + 1, by simp at h1 ⊢; omega, by rwa [List.getD_cons_succ], ?_⟩
      intro i hi1 hi2
      cases i with
      | zero => omega
      | succ k =>
        rw [List.getD_cons_succ]
        exact h3 k (by omega) (by omega)
    · have hm3' : (20 : Nat) ≤ 0 + m := hm3
      left
      refine ⟨0, by simp; omega, by rw [List.getD_cons_zero], ?_⟩
      intro i hi1 hi2
      cases i with
      | zero => omega
      | succ k =>
        rw [List.getD_cons_succ]
        exact hm4 k (by omega)

theorem firesFrom_silence_nolatch (d : Debounce) (cs : List VadClass)
    (hd : d.vadSpeechDetected = false) :
    FiresFrom d (.silence :: cs) ↔ FiresFrom d cs := by
  unfold FiresFrom SpeechWindow
  constructor
  · rintro (⟨j, h1, h2, h3⟩ | ⟨hlatch, _⟩)
    · cases j with
      | zero =>
        rw [List.getD_cons_zero] at h2
        exact absurd h2 (by decide)
      | succ k =>
        left
        refine ⟨k, by simp at h1 ⊢; omega, by rwa [List.getD_cons_succ] at h2, ?_⟩
        intro i hi1 hi2
        have hx := h3 (i + 1) (by omega) (by omega)
        rwa [List.getD_cons_succ] at hx
    · rw [hd] at hlatch
      exact absurd hlatch (by decide)
  · rintro (⟨j, h1, h2, h3⟩ | ⟨hlatch, _⟩)
    · left
      refine ⟨j + 1, by simp at h1 ⊢; omega, by rwa [List.getD_cons_succ], ?_⟩
      intro i hi1 hi2
      cases i with
      | zero => omega
      | succ k =>
        rw [List.getD_cons_succ]
        exact h3 k (by omega) (by omega)
    · rw [hd] at hlatch
      exact absurd hlatch (by decide)

theorem firesFrom_silence_latch (d : Debounce) (cs : List VadClass)
    (hd : d.vadSpeechDetected = true)
    (hno : d.vadSilenceFrames + 1 < VAD_SILENCE_FRAMES_REQUIRED) :
    FiresFrom d (.silence :: cs) ↔
      FiresFrom { d with vadSilenceFrames := d.vadSilenceFrames + 1 } cs := by
  unfold FiresFrom SpeechWindow
  constructor
  · rintro (⟨j, h1, h2, h3⟩ | ⟨_, m, hm1, hm2, hm3, hm4⟩)
    · cases j with
      | zero =>
        rw [List.getD_cons_zero] at h2
        exact absurd h2 (by decide)
      | succ k =>
        left
        refine ⟨k, by simp at h1 ⊢; omega, by rwa [List.getD_cons_succ] at h2, ?_⟩
        intro i hi1 hi2
        have hx := h3 (i + 1) (by omega) (by omega)
        rwa [List.getD_cons_succ] at hx
    · have hm3' : VAD_SILENCE_FRAMES_REQUIRED ≤ d.vadSilenceFrames + m := hm3
      right
      refine ⟨hd, m - 1, by omega, by simp at hm2; omega, ?_, ?_⟩
      · show VAD_SILENCE_FRAMES_REQUIRED ≤ d.vadSilenceFrames + 1 + (m - 1)
        omega
      · intro i hi
        have hx := hm4 (i + 1) (by omega)
        rwa [List.getD_cons_succ] at hx
  · rintro (⟨j, h1, h2, h3⟩ | ⟨_, m, hm1, hm2, hm3, hm4⟩)
    · left
      refine ⟨j + 1, by simp at h1 ⊢; omega, by rwa [List.getD_cons_succ], ?_⟩
      intro i hi1 hi2
      cases i with
      | zero => omega
      | succ k =>
        rw [List.getD_cons_succ]
        exact h3 k (by omega) (by omega)
    · have hm3' : VAD_SILENCE_FRAMES_REQUIRED ≤ d.vadSilenceFrames + 1 + m := hm3
      right
      refine ⟨hd, m + 1, by omega, by simp at hm2 ⊢; omega, by omega, ?_⟩
      intro i hi
      cases i with
      | zero => rw [List.getD_cons_zero]
      | succ k =>
        rw [List.getD_cons_succ]
        exact hm4 k (by omega)

theorem firesFrom_fire (d : Debounce) (cs : List VadClass)
    (hd : d.vadSpeechDetected = true)
    (hfire : VAD_SILENCE_FRAMES_REQUIRED ≤ d.vadSilenceFrames + 1) :
    FiresFrom d (.silence :: cs) := by
  right
  refine ⟨hd, 1, le_refl 1, by rw [List.length_cons]; omega, by omega, ?_⟩
  intro i hi
  have hz : i = 0 := by omega
  subst hz
  rw [List.getD_cons_zero]

/-- The debouncer fires on `cs` from `d` exactly when `FiresFrom d cs`. -/
theorem debRun_fires_iff (cs : List VadClass) :
    ∀ d : Debounce, (debRun d cs).2 = true ↔ FiresFrom d cs := by
  induction cs with
  | nil =>
    intro d
    rw [show (debRun d []).2 = false from rfl]
    constructor
    · intro h
      exact absurd h (by decide)
    · intro h
      exfalso
      unfold FiresFrom SpeechWindow at h
      rcases h with ⟨j, hj1, _, _⟩ | ⟨_, m, hm1, hm2, _⟩
      · rw [List.length_nil] at hj1
        omega
      · rw [List.length_nil] at hm2
        omega
  | cons c cs ih =>
    intro d
    rw [debRun_cons]
    cases c with
    | speech =>
      rw [debStep_speech]
      show (false ||
        (debRun { vadSpeechDetected := true, vadSilenceFrames := 0 } cs).2) = true ↔ _
      rw [Bool.false_or, ih]
      exact (firesFrom_speech d cs).symm
    | silence =>
      cases hd : d.vadSpeechDetected with
      | false =>
        rw [debStep_silence_false d hd]
        show (false || (debRun d cs).2) = true ↔ _
        rw [Bool.false_or, ih]
        exact (firesFrom_silence_nolatch d cs hd).symm
      | true =>
        rw [debStep_silence_true d hd]
        by_cases hfire : VAD_SILENCE_FRAMES_REQUIRED ≤ d.vadSilenceFrames + 1
        · show (decide (VAD_SILENCE_FRAMES_REQUIRED ≤ d.vadSilenceFrames + 1) ||
            (debRun { d with vadSilenceFrames := d.vadSilenceFrames + 1 } cs).2)
              = true ↔ _
          rw [decide_eq_true hfire, Bool.true_or]
          constructor
          · intro _
            exact firesFrom_fire d cs hd hfire
          · intro _
            rfl
        · show (decide (VAD_SILENCE_FRAMES_REQUIRED ≤ d.vadSilenceFrames + 1) ||
            (debRun { d with vadSilenceFrames := d.vadSilenceFrames + 1 } cs).2)
              = true ↔ _
          rw [decide_eq_false hfire, Bool.false_or, ih]
          exact (firesFrom_silence_latch d cs hd (by omega)).symm

/-- The debouncer never changes state nor fires on silence frames while the
latch is clear. -/
theorem debRun_silence_only (cs : List VadClass) :
    ∀ d : Debounce, d.vadSpeechDetected = false → (∀ c ∈ cs, c = .silence) →
      debRun d cs = (d, false) := by
  induction cs with
  | nil => intro d _ _; rfl
  | cons c cs ih =>
    intro d hd hall
    have hc : c = .silence := hall c (List.mem_cons_self c cs)
    subst hc
    rw [debRun_cons, debStep_silence_false d hd]
    have htail := ih d hd (fun x hx => hall x (List.mem_cons_of_mem _ hx))
    show ((debRun d cs).1, false || (debRun d cs).2) = (d, false)
    rw [htail]
    rfl

/-- From the reset state the second disjunct of `FiresFrom` is vacuous. -/
theorem debReset_fires_iff (cs : List VadClass) :
    (debRun debReset cs).2 = true ↔ ∃ j, SpeechWindow cs j := by
  rw [debRun_fires_iff cs debReset]
  unfold FiresFrom
  constructor
  · rintro (h | ⟨hlatch, _⟩)
    · exact h
    · exact absurd hlatch (by decide)
  · exact Or.inl

/-! ## The dialog state machine (`app_main` main loop) -/

/-- `system_state_t`. -/
inductive Phase where
  | waitingWakeup
  | recording
  | waitingResponse
deriving DecidableEq

/-- Local sounds played through the renderer (`hi`, `ok`, `custom`, `bye`
audio assets). -/
inductive Sound where
  | hi
  | ok
  | custom
  | bye
deriving DecidableEq

/-- Outbound control messages (values of the `event` field). -/
inductive Msg where
  | wakeDetected
  | recordingStarted
  | recordingEnded
  | recordingCancelled
deriving DecidableEq

/-- Externally observable actions of one loop iteration. -/
inductive Event where
  | sentText (m : Msg)
  | sentBinary (samples : Nat)
  | playedSound (s : Sound)
  | ledOn
  | ledOff
  | wsConnectAttempt
  | wsDisconnect
deriving DecidableEq

/-- `RECORDING_TIMEOUT_MS` (10 s); ticks modelled as milliseconds. -/
def RECORDING_TIMEOUT_MS : Nat := 10000

/-- `COMMAND_TURN_OFF_LIGHT`. -/
def COMMAND_TURN_OFF_LIGHT : Nat := 308

/-- `COMMAND_TURN_ON_LIGHT`. -/
def COMMAND_TURN_ON_LIGHT : Nat := 309

/-- `COMMAND_BYE_BYE`. -/
def COMMAND_BYE_BYE : Nat := 314

/-- `COMMAND_CUSTOM`. -/
def COMMAND_CUSTOM : Nat := 315

/-- The global state of `app_main`.  The `response_played` flag lives with
the WebSocket callback context and is modelled as the per-tick input
`responsePlayed`. -/
structure SysState where
  currentState : Phase
  vadSpeechDetected : Bool
  vadSilenceFrames : Nat
  userStartedSpeaking : Bool
  isContinuousConversation : Bool
  recordingTimeoutStart : Nat
  isRealtimeStreaming : Bool
  recorder : RecorderState
deriving DecidableEq

/-- Per-tick environment inputs: wake-word detector result, VAD
classification, command-word detector result (`some id` when
`ESP_MN_STATE_DETECTED` with a nonempty result list), WebSocket connection
state, the `response_played` flag set by the callback context, and the
tick-counter value `xTaskGetTickCount()`. -/
structure TickInput where
  wakeDetected : Bool
  vad : VadClass
  command : Option Nat
  wsConnected : Bool
  responsePlayed : Bool
  now : Nat
deriving DecidableEq

/-- `execute_exit_logic`: play the farewell sound, disconnect the
WebSocket, return to the wake phase and clear the session flags (the
source does not reset `is_realtime_streaming` here). -/
def executeExitLogic (st : SysState) : SysState × List Event :=
  ({ st with currentState := .waitingWakeup,
             recorder := { isRecording := false, recordingLength := 0 },
             isContinuousConversation := false,
             userStartedSpeaking := false,
             recordingTimeoutStart := 0,
             vadSpeechDetected := false,
             vadSilenceFrames := 0 },
   [.playedSound .bye, .wsDisconnect])

/-- The restart block repeated after each light/custom command in
continuous mode: clear and restart the recording, reset the debouncer and
flags, restart the reply timeout, disable realtime streaming. -/
def commandRestart (st : SysState) (now : Nat) : SysState :=
  { st with recorder := startRecording,
            vadSpeechDetected := false,
            vadSilenceFrames := 0,
            userStartedSpeaking := false,
            recordingTimeoutStart := now,
            isRealtimeStreaming := false }

/-- The `switch` on a detected command id (`stopRecording` has already been
applied by the caller): the four known ids end the iteration with
`continue`; an unknown id falls through to the VAD handling (`none`). -/
def commandDispatch (st : SysState) (now : Nat) (id : Nat) :
    Option (SysState × List Event) :=
  if id = COMMAND_TURN_ON_LIGHT then
    some (commandRestart st now, [.ledOn, .playedSound .ok])
  else if id = COMMAND_TURN_OFF_LIGHT then
    some (commandRestart st now, [.ledOff, .playedSound .ok])
  else if id = COMMAND_BYE_BYE then
    some (executeExitLogic st)
  else if id = COMMAND_CUSTOM then
    some (commandRestart st now, [.playedSound .custom])
  else none

/-- The VAD handling inside the RECORDING branch: SPEECH sets the latch,
zeroes the counter, marks the user as having spoken, cancels the reply
timeout and enables realtime streaming; SILENCE with the latch set counts
up and at the threshold ends the utterance — long enough moves to
WAITING_RESPONSE with a `recording_ended` message, too short is cancelled
and recording restarts (realtime streaming re-enabled exactly when not in
continuous mode, faithful to the source). -/
def vadHandle (st : SysState) (inp : TickInput) : SysState × List Event :=
  match inp.vad with
  | .speech =>
    ({ st with vadSpeechDetected := true,
               vadSilenceFrames := 0,
               userStartedSpeaking := true,
               recordingTimeoutStart := 0,
               isRealtimeStreaming := true }, [])
  | .silence =>
    if st.vadSpeechDetected = true then
      if VAD_SILENCE_FRAMES_REQUIRED ≤ st.vadSilenceFrames + 1 then
        if st.userStartedSpeaking = true ∧
            MIN_UTTERANCE_SAMPLES < st.recorder.recordingLength then
          ({ st with vadSilenceFrames := st.vadSilenceFrames + 1,
                     recorder := stopRecording st.recorder,
                     isRealtimeStreaming := false,
                     currentState := .waitingResponse },
           if inp.wsConnected = true then [.sentText .recordingEnded] else [])
        else
          ({ st with vadSilenceFrames := 0,
                     recorder := startRecording,
                     vadSpeechDetected := false,
                     userStartedSpeaking := false,
                     isRealtimeStreaming := !st.isContinuousConversation,
                     recordingTimeoutStart :=
                       if st.isContinuousConversation = true then inp.now
                       else st.recordingTimeoutStart },
           if inp.wsConnected = true then [.sentText .recordingCancelled]
           else [])
      else
        ({ st with vadSilenceFrames := st.vadSilenceFrames + 1 }, [])
    else (st, [])

/-- The continuous-conversation no-speech timeout check at the end of the
RECORDING branch: armed timer, user has not spoken, elapsed strictly above
the bound. -/
def timeoutCheck (st : SysState) (inp : TickInput) (evs : List Event) :
    SysState × List Event :=
  if st.isContinuousConversation = true ∧ 0 < st.recordingTimeoutStart ∧
      st.userStartedSpeaking = false ∧
      RECORDING_TIMEOUT_MS < inp.now - st.recordingTimeoutStart then
    ((executeExitLogic { st with recorder := stopRecording st.recorder }).1,
     evs ++ (executeExitLogic { st with recorder := stopRecording st.recorder }).2)
  else (st, evs)

/-- The timeout check applied after the VAD handling. -/
def timeoutPost (r : SysState × List Event) (inp : TickInput)
    (evs : List Event) : SysState × List Event :=
  timeoutCheck r.1 inp (evs ++ r.2)

/-- The realtime uplink: the captured frame is forwarded as one binary
message exactly when realtime streaming is on and the socket is
connected. -/
def realtimeEvents (st : SysState) (inp : TickInput) (samples : Nat) :
    List Event :=
  if st.isRealtimeStreaming = true ∧ inp.wsConnected = true then
    [.sentBinary samples]
  else []

/-- Body of the active-recording path, after the frame append: realtime
uplink, then command detection (continuous mode only; `stopRecording` runs
before the dispatch switch), then VAD handling and the timeout check.  The
known-command paths `continue` the loop, skipping VAD and timeout. -/
def recordingBody (st : SysState) (inp : TickInput) (samples : Nat) :
    SysState × List Event :=
  match (if st.isContinuousConversation = true then inp.command else none) with
  | some id =>
    match commandDispatch { st with recorder := stopRecording st.recorder }
        inp.now id with
    | some r => (r.1, realtimeEvents st inp samples ++ r.2)
    | none =>
      timeoutPost
        (vadHandle { st with recorder := stopRecording st.recorder } inp) inp
        (realtimeEvents st inp samples)
  | none =>
    timeoutPost (vadHandle st inp) inp (realtimeEvents st inp samples)

/-- The `STATE_RECORDING` branch of the main loop: while actively recording
and not full, append the frame and run the body; a full buffer ends the
turn with a `recording_ended` message; the timeout check runs in all
non-`continue` paths. -/
def recordingStep (st : SysState) (inp : TickInput) (samples : Nat) :
    SysState × List Event :=
  if st.recorder.isRecording = true ∧ isRecordingBufferFull st.recorder = false then
    recordingBody
      { st with recorder := (addRecordingData st.recorder samples).1 } inp samples
  else if isRecordingBufferFull st.recorder = true then
    timeoutCheck
      { st with recorder := stopRecording st.recorder,
                isRealtimeStreaming := false,
                currentState := .waitingResponse }
      inp
      (if inp.wsConnected = true then [.sentText .recordingEnded] else [])
  else
    timeoutCheck st inp []

/-- The `STATE_WAITING_WAKEUP` branch: on wake detection, reconnect when
needed, announce when connected, play the greeting and enter RECORDING
with all session state reset.  (The connection state is read once per
tick.) -/
def wakeupStep (st : SysState) (inp : TickInput) : SysState × List Event :=
  if inp.wakeDetected = true then
    ({ st with currentState := .recording,
               recorder := startRecording,
               vadSpeechDetected := false,
               vadSilenceFrames := 0,
               isContinuousConversation := false,
               userStartedSpeaking := false,
               recordingTimeoutStart := 0,
               isRealtimeStreaming := false },
     (if inp.wsConnected = false then [.wsConnectAttempt] else []) ++
       (if inp.wsConnected = true then [.sentText .wakeDetected] else []) ++
       [.playedSound .hi] ++
       (if inp.wsConnected = true then [.sentText .recordingStarted] else []))
  else (st, [])

/-- The `STATE_WAITING_RESPONSE` branch: when playback has completed
(`isResponsePlayed`, set by the WebSocket callback on the idle marker),
announce and re-enter RECORDING in continuous-conversation mode with the
reply timeout armed at the current tick. -/
def responseStep (st : SysState) (inp : TickInput) : SysState × List Event :=
  if inp.responsePlayed = true then
    ({ st with currentState := .recording,
               recorder := startRecording,
               vadSpeechDetected := false,
               vadSilenceFrames := 0,
               isContinuousConversation := true,
               userStartedSpeaking := false,
               recordingTimeoutStart := inp.now,
               isRealtimeStreaming := false },
     if inp.wsConnected = true then [.sentText .recordingStarted] else [])
  else (st, [])

/-- One iteration of the main loop, after frame capture and noise
suppression; `samples` is the fixed per-frame sample count
(`audio_chunksize / sizeof(int16_t)`, set by the wake-word model). -/
def step (samples : Nat) (st : SysState) (inp : TickInput) :
    SysState × List Event :=
  match st.currentState with
  | .waitingWakeup => wakeupStep st inp
  | .recording => recordingStep st inp samples
  | .waitingResponse => responseStep st inp

/-- Run a list of ticks, accumulating the emitted events. -/
def run (samples : Nat) (st : SysState) :
    List TickInput → SysState × List Event
  | [] => (st, [])
  | i :: is =>
    ((run samples (step samples st i).1 is).1,
     (step samples st i).2 ++ (run samples (step samples st i).1 is).2)

/-- The global state at boot. -/
def initialState : SysState :=
  { currentState := .waitingWakeup,
    vadSpeechDetected := false,
    vadSilenceFrames := 0,
    userStartedSpeaking := false,
    isContinuousConversation := false,
    recordingTimeoutStart := 0,
    isRealtimeStreaming := false,
    recorder := { isRecording := false, recordingLength := 0 } }

/-- States reachable from boot by main-loop iterations. -/
inductive SysReachable (samples : Nat) : SysState → Prop where
  | init : SysReachable samples initialState
  | step (st : SysState) (inp : TickInput) :
      SysReachable samples st → SysReachable samples (step samples st inp).1

/-! ### Machine helper lemmas -/

theorem step_wakeup (samples : Nat) (st : SysState) (inp : TickInput)
    (h : st.currentState = .waitingWakeup) :
    step samples st inp = wakeupStep st inp := by
  unfold step
  rw [h]

theorem step_recording (samples : Nat) (st : SysState) (inp : TickInput)
    (h : st.currentState = .recording) :
    step samples st inp = recordingStep st inp samples := by
  unfold step
  rw [h]

theorem step_response (samples : Nat) (st : SysState) (inp : TickInput)
    (h : st.currentState = .waitingResponse) :
    step samples st inp = responseStep st inp := by
  unfold step
  rw [h]

theorem run_cons (samples : Nat) (st : SysState) (i : TickInput)
    (is : List TickInput) :
    run samples st (i :: is) =
      ((run samples (step samples st i).1 is).1,
       (step samples st i).2 ++ (run samples (step samples st i).1 is).2) := rfl

theorem run_nil (samples : Nat) (st : SysState) :
    run samples st [] = (st, []) := rfl

theorem run_append (samples : Nat) (l1 l2 : List TickInput) :
    ∀ st, run samples st (l1 ++ l2) =
      ((run samples (run samples st l1).1 l2).1,
       (run samples st l1).2 ++
         (run samples (run samples st l1).1 l2).2) := by
  induction l1 with
  | nil =>
    intro st
    rw [List.nil_append, run_nil]
    show run samples st l2 = ((run samples st l2).1, [] ++ (run samples st l2).2)
    rw [List.nil_append]
  | cons i is ih =>
    intro st
    rw [List.cons_append, run_cons, ih (step samples st i).1, run_cons]
    simp [List.append_assoc]

theorem responseStep_eq (st : SysState) (inp : TickInput)
    (h : inp.responsePlayed = true) :
    responseStep st inp =
      ({ currentState := .recording,
         vadSpeechDetected := false,
         vadSilenceFrames := 0,
         userStartedSpeaking := false,
         isContinuousConversation := true,
         recordingTimeoutStart := inp.now,
         isRealtimeStreaming := false,
         recorder := startRecording },
       if inp.wsConnected = true then [Event.sentText .recordingStarted]
       else []) := by
  unfold responseStep
  rw [if_pos h]

/-! ### C3: buffer-full versus rejected over-capacity appends -/

/-- A silent disconnected tick. -/
def silentTick : TickInput :=
  { wakeDetected := false, vad := .silence, command := none,
    wsConnected := false, responsePlayed := false, now := 0 }

/-- A wake-word tick. -/
def wakeTick : TickInput :=
  { wakeDetected := true, vad := .silence, command := none,
    wsConnected := false, responsePlayed := false, now := 0 }

/-- The RECORDING state reached from boot by a wake-up and 312 silent
512-sample frames: 159744 samples recorded, 256 samples short of the
160000-sample capacity. -/
def c3State : SysState :=
  { currentState := .recording,
    vadSpeechDetected := false,
    vadSilenceFrames := 0,
    userStartedSpeaking := false,
    isContinuousConversation := false,
    recordingTimeoutStart := 0,
    isRealtimeStreaming := false,
    recorder := { isRecording := true, recordingLength := 159744 } }

set_option maxRecDepth 40000 in
/-- C3 as stated is false on the code: with 512-sample frames (512 does not
divide 160000) the append at 159744 recorded samples is attempted beyond
the capacity and rejected, but `isRecordingBufferFull` (length ≥ capacity)
remains false, so the next machine step leaves the phase at RECORDING
instead of moving to WAITING_RESPONSE.  The state is reachable from boot:
one wake-up tick followed by 312 silent frames. -/
theorem buffer_overflow_counterexample :
    (run 512 initialState (wakeTick :: List.replicate 312 silentTick)).1
      = c3State ∧
    RECORDING_BUFFER_SIZE < c3State.recorder.recordingLength + 512 ∧
    c3State.recorder.recordingLength < RECORDING_BUFFER_SIZE ∧
    addRecordingData c3State.recorder 512 = (c3State.recorder, false) ∧
    (step 512 c3State silentTick).1.currentState = Phase.recording ∧
    ¬ (step 512 c3State silentTick).1.currentState = Phase.waitingResponse := by
  decide

/-- C3 (amended): an over-capacity append is rejected without modifying the
recording buffer and by itself does not change the phase; the machine moves
to WAITING_RESPONSE on the step after the buffer is exactly full (length ≥
capacity — reachable only when the frame size divides the capacity),
regardless of the debouncer's counter and latch, provided the
continuous-conversation no-speech timeout does not fire on that same
step. -/
theorem buffer_full_forces_waiting_response (st : SysState) (inp : TickInput)
    (samples : Nat) (r : RecorderState)
    (hrec : st.currentState = .recording)
    (hfull : RECORDING_BUFFER_SIZE ≤ st.recorder.recordingLength)
    (hnotimeout : ¬ (st.isContinuousConversation = true ∧
      0 < st.recordingTimeoutStart ∧ st.userStartedSpeaking = false ∧
      RECORDING_TIMEOUT_MS < inp.now - st.recordingTimeoutStart))
    (hover : RECORDING_BUFFER_SIZE < r.recordingLength + samples) :
    (step samples st inp).1.currentState = Phase.waitingResponse ∧
    addRecordingData r samples = (r, false) := by
  have hfullb : isRecordingBufferFull st.recorder = true := decide_eq_true hfull
  constructor
  · rw [step_recording samples st inp hrec]
    unfold recordingStep
    rw [if_neg (by rw [hfullb]; simp), if_pos hfullb]
    unfold timeoutCheck
    rw [if_neg hnotimeout]
  · unfold addRecordingData
    by_cases hact : r.isRecording = false
    · rw [if_pos hact]
    · rw [if_neg hact, if_pos hover]

/-- Witness for the amended C3: a full buffer in a non-continuous session
moves to WAITING_RESPONSE, and a 512-sample append onto 159744 recorded
samples is rejected unchanged. -/
theorem buffer_full_forces_waiting_response_witness :
    ({ c3State with
        recorder := { isRecording := true, recordingLength := 160000 }
      } : SysState).currentState = Phase.recording ∧
    RECORDING_BUFFER_SIZE ≤ (160000 : Nat) ∧
    RECORDING_BUFFER_SIZE < 159744 + 512 ∧
    ((step 512 { c3State with
        recorder := { isRecording := true, recordingLength := 160000 } }
      silentTick).1.currentState = Phase.waitingResponse ∧
     addRecordingData { isRecording := true, recordingLength := 159744 } 512 =
       ({ isRecording := true, recordingLength := 159744 }, false)) :=
  ⟨rfl, by decide, by decide,
   buffer_full_forces_waiting_response
     { c3State with recorder := { isRecording := true, recordingLength := 160000 } }
     silentTick 512 { isRecording := true, recordingLength := 159744 }
     rfl (by decide) (by decide) (by decide)⟩

/-! ### C9: continuous-conversation no-speech timeout -/

theorem addRecordingData_isRecording (r : RecorderState) (samples : Nat) :
    (addRecordingData r samples).1.isRecording = r.isRecording := by
  unfold addRecordingData
  split
  · rfl
  · split <;> rfl

theorem addRecordingData_length (r : RecorderState) (samples : Nat)
    (hact : r.isRecording = true) :
    (addRecordingData r samples).1.recordingLength =
      (if RECORDING_BUFFER_SIZE < r.recordingLength + samples then
        r.recordingLength else r.recordingLength + samples) := by
  unfold addRecordingData
  rw [if_neg (by rw [hact]; simp)]
  split <;> rfl

/-- The state produced by the continuous-conversation re-entry at tick
`t0`. -/
def reentryState (t0 : Nat) : SysState :=
  { currentState := .recording,
    vadSpeechDetected := false,
    vadSilenceFrames := 0,
    userStartedSpeaking := false,
    isContinuousConversation := true,
    recordingTimeoutStart := t0,
    isRealtimeStreaming := false,
    recorder := startRecording }

/-- Invariant of the machine after a continuous-conversation re-entry at
`t0` while no speech has been classified: phase RECORDING, debouncer and
flags clear, timeout armed at `t0`, recorder active with a frame-aligned,
not-full length. -/
def AwaitingSpeech (t0 samples : Nat) (st : SysState) : Prop :=
  st.currentState = .recording ∧
  st.vadSpeechDetected = false ∧
  st.vadSilenceFrames = 0 ∧
  st.userStartedSpeaking = false ∧
  st.isContinuousConversation = true ∧
  st.recordingTimeoutStart = t0 ∧
  st.isRealtimeStreaming = false ∧
  st.recorder.isRecording = true ∧
  samples ∣ st.recorder.recordingLength ∧
  st.recorder.recordingLength < RECORDING_BUFFER_SIZE

theorem reentry_awaitingSpeech (t0 samples : Nat) :
    AwaitingSpeech t0 samples (reentryState t0) := by
  refine ⟨rfl, rfl, rfl, rfl, rfl, rfl, rfl, rfl, Dvd.intro 0 rfl, ?_⟩
  show (0 : Nat) < RECORDING_BUFFER_SIZE
  unfold RECORDING_BUFFER_SIZE SAMPLE_RATE
  omega

/-- One silent, command-free tick inside the 10 s window: the only effect
is the (possibly rejected) frame append; no events are emitted and the
awaiting-speech invariant is preserved. -/
theorem silent_step (t0 samples : Nat) (st : SysState) (inp : TickInput)
    (hnd : ¬ samples ∣ RECORDING_BUFFER_SIZE)
    (hI : AwaitingSpeech t0 samples st)
    (hvad : inp.vad = .silence) (hcmd : inp.command = none)
    (hto : inp.now - t0 ≤ RECORDING_TIMEOUT_MS) :
    step samples st inp =
      ({ st with recorder := (addRecordingData st.recorder samples).1 }, []) ∧
    AwaitingSpeech t0 samples
      { st with recorder := (addRecordingData st.recorder samples).1 } := by
  obtain ⟨h1, h2, h3, h4, h5, h6, h7, h8, h9, h10⟩ := hI
  have hfull : isRecordingBufferFull st.recorder = false :=
    decide_eq_false (by omega)
  have hto' : ¬ (RECORDING_TIMEOUT_MS < inp.now - t0) := by omega
  constructor
  · rw [step_recording samples st inp h1]
    unfold recordingStep recordingBody vadHandle timeoutPost timeoutCheck
      realtimeEvents
    simp [h2, h4, h5, h6, h7, h8, hfull, hvad, hcmd, hto']
  · refine ⟨h1, h2, h3, h4, h5, h6, h7, ?_, ?_, ?_⟩
    · show (addRecordingData st.recorder samples).1.isRecording = true
      rw [addRecordingData_isRecording, h8]
    · show samples ∣ (addRecordingData st.recorder samples).1.recordingLength
      rw [addRecordingData_length st.recorder samples h8]
      split
      · exact h9
      · exact Dvd.dvd.add h9 (dvd_refl samples)
    · show (addRecordingData st.recorder samples).1.recordingLength <
        RECORDING_BUFFER_SIZE
      rw [addRecordingData_length st.recorder samples h8]
      split
      · exact h10
      · have hne : st.recorder.recordingLength + samples ≠
            RECORDING_BUFFER_SIZE := by
          intro hEq
          exact hnd (hEq ▸ Dvd.dvd.add h9 (dvd_refl samples))
        omega

/-- A run of silent in-window ticks keeps the machine awaiting speech and
emits nothing. -/
theorem silent_run (t0 samples : Nat) (hnd : ¬ samples ∣ RECORDING_BUFFER_SIZE) :
    ∀ inps : List TickInput,
      (∀ i ∈ inps, i.vad = .silence ∧ i.command = none ∧
        i.now - t0 ≤ RECORDING_TIMEOUT_MS) →
      ∀ st, AwaitingSpeech t0 samples st →
        AwaitingSpeech t0 samples (run samples st inps).1 ∧
        (run samples st inps).2 = [] := by
  intro inps
  induction inps with
  | nil => intro _ st hI; exact ⟨hI, rfl⟩
  | cons i is ih =>
    intro hq st hI
    obtain ⟨hv, hc, ht⟩ := hq i (List.mem_cons_self i is)
    obtain ⟨he, hI'⟩ := silent_step t0 samples st i hnd hI hv hc ht
    rw [run_cons, he]
    obtain ⟨ihI, ihE⟩ :=
      ih (fun x hx => hq x (List.mem_cons_of_mem _ hx)) _ hI'
    refine ⟨ihI, ?_⟩
    show ([] : List Event) ++ _ = []
    rw [List.nil_append]
    exact ihE

/-- The first silent tick past the 10 s window fires the exit: farewell
sound, disconnect, back to WAITING_WAKEUP. -/
theorem timeout_fire_step (t0 samples : Nat) (st : SysState) (inp : TickInput)
    (hI : AwaitingSpeech t0 samples st)
    (hvad : inp.vad = .silence) (hcmd : inp.command = none)
    (ht0 : 0 < t0)
    (hto : RECORDING_TIMEOUT_MS < inp.now - t0) :
    (step samples st inp).1.currentState = Phase.waitingWakeup ∧
    (step samples st inp).2 = [.playedSound .bye, .wsDisconnect] := by
  obtain ⟨h1, h2, h3, h4, h5, h6, h7, h8, h9, h10⟩ := hI
  have hfull : isRecordingBufferFull st.recorder = false :=
    decide_eq_false (by omega)
  have hstep : step samples st inp = recordingStep st inp samples :=
    step_recording samples st inp h1
  rw [hstep]
  unfold recordingStep recordingBody vadHandle timeoutPost timeoutCheck
    realtimeEvents executeExitLogic
  constructor <;>
    simp [h2, h4, h5, h6, h7, h8, hfull, hvad, hcmd, hto, ht0]

/-- C9: if the machine re-enters RECORDING in continuous-conversation mode
at tick `t0 > 0` (playback completed) and every subsequent tick is silent
with no command detected — within the 10 s window for all but the last
tick, which exceeds it — then the dialog exits to WAITING_WAKEUP, the
farewell sound is played exactly once, and the connection is closed.  The
frame size must not divide the buffer capacity (true of the deployed
512-sample frames against 160000 samples), which rules out the buffer
filling exactly. -/
theorem continuous_timeout_exit (samples t0 : Nat) (pre : List TickInput)
    (last : TickInput) (st0 : SysState) (inp0 : TickInput)
    (hnd : ¬ samples ∣ RECORDING_BUFFER_SIZE)
    (ht0 : 0 < t0)
    (hpre : ∀ i ∈ pre, i.vad = .silence ∧ i.command = none ∧
      i.now - t0 ≤ RECORDING_TIMEOUT_MS)
    (hlv : last.vad = .silence) (hlc : last.command = none)
    (hlt : RECORDING_TIMEOUT_MS < last.now - t0)
    (hwr : st0.currentState = .waitingResponse)
    (hrp : inp0.responsePlayed = true) (hn0 : inp0.now = t0) :
    (step samples st0 inp0).1 = reentryState t0 ∧
    (run samples (reentryState t0) (pre ++ [last])).1.currentState
      = Phase.waitingWakeup ∧
    (run samples (reentryState t0) (pre ++ [last])).2.count
      (Event.playedSound Sound.bye) = 1 ∧
    Event.wsDisconnect ∈ (run samples (reentryState t0) (pre ++ [last])).2 := by
  obtain ⟨hmid, hmidE⟩ := silent_run t0 samples hnd pre hpre (reentryState t0)
    (reentry_awaitingSpeech t0 samples)
  obtain ⟨hfin, hfinE⟩ := timeout_fire_step t0 samples
    (run samples (reentryState t0) pre).1 last hmid hlv hlc ht0 hlt
  have hra := run_append samples pre [last] (reentryState t0)
  have hlast : run samples (run samples (reentryState t0) pre).1 [last] =
      ((step samples (run samples (reentryState t0) pre).1 last).1,
       (step samples (run samples (reentryState t0) pre).1 last).2 ++ []) := rfl
  refine ⟨?_, ?_, ?_, ?_⟩
  · rw [step_response samples st0 inp0 hwr, responseStep_eq st0 inp0 hrp, hn0]
    rfl
  · rw [hra]
    show (run samples (run samples (reentryState t0) pre).1 [last]).1.currentState
      = _
    rw [hlast]
    exact hfin
  · rw [hra]
    show ((run samples (reentryState t0) pre).2 ++
      (run samples (run samples (reentryState t0) pre).1 [last]).2).count _ = 1
    rw [hmidE, hlast, List.nil_append]
    show ((step samples _ last).2 ++ ([] : List Event)).count _ = 1
    rw [List.append_nil, hfinE]
    decide
  · rw [hra]
    show Event.wsDisconnect ∈ (run samples (reentryState t0) pre).2 ++
      (run samples (run samples (reentryState t0) pre).1 [last]).2
    rw [hmidE, hlast, List.nil_append]
    show Event.wsDisconnect ∈ (step samples _ last).2 ++ ([] : List Event)
    rw [List.append_nil, hfinE]
    decide

/-- A silent connected tick past the window. -/
def lateTick : TickInput :=
  { wakeDetected := false, vad := .silence, command := none,
    wsConnected := true, responsePlayed := false, now := 10002 }

/-- The playback-completed tick at time 1. -/
def playedTick : TickInput :=
  { wakeDetected := false, vad := .silence, command := none,
    wsConnected := false, responsePlayed := true, now := 1 }

/-- Witness for C9 at concrete inputs. -/
theorem continuous_timeout_exit_witness :
    ¬ (512 : Nat) ∣ RECORDING_BUFFER_SIZE ∧
    RECORDING_TIMEOUT_MS < lateTick.now - 1 ∧
    ({ initialState with currentState := .waitingResponse }
      : SysState).currentState = .waitingResponse ∧
    ((step 512 { initialState with currentState := .waitingResponse }
        playedTick).1 = reentryState 1 ∧
     (run 512 (reentryState 1) ([] ++ [lateTick])).1.currentState
       = Phase.waitingWakeup ∧
     (run 512 (reentryState 1) ([] ++ [lateTick])).2.count
       (Event.playedSound Sound.bye) = 1 ∧
     Event.wsDisconnect ∈ (run 512 (reentryState 1) ([] ++ [lateTick])).2) :=
  ⟨by decide, by decide, rfl,
   continuous_timeout_exit 512 1 [] lateTick
     { initialState with currentState := .waitingResponse } playedTick
     (by decide) (by decide) (by simp) rfl rfl (by decide) rfl rfl rfl⟩

/-! ### C7: the realtime-uplink gate -/

/-- A speech-classified disconnected tick. -/
def speechTick : TickInput :=
  { wakeDetected := false, vad := .speech, command := none,
    wsConnected := false, responsePlayed := false, now := 0 }

/-- A silence-classified connected tick. -/
def connectedSilentTick : TickInput :=
  { wakeDetected := false, vad := .silence, command := none,
    wsConnected := true, responsePlayed := false, now := 0 }

/-- Wake, one speech frame, then twenty silence frames (100-sample
frames, socket down throughout). -/
def c7Inputs : List TickInput :=
  wakeTick :: speechTick :: List.replicate 20 silentTick

set_option maxRecDepth 40000 in
/-- C7 as stated is false on the code: with 100-sample frames, one speech
frame followed by the 20-frame silence debounce gives a 2100-sample
utterance, below the 4000-sample floor, so the recording is cancelled and
restarted — and on that restart the source sets
`is_realtime_streaming = !is_continuous_conversation`, i.e. `true` in a
first (non-continuous) conversation, while the speech latch is cleared.
The very next captured frame is then sent as a binary uplink message even
though no SPEECH has been classified since the recording restarted. -/
theorem silence_streamed_counterexample :
    (run 100 initialState c7Inputs).1.currentState = Phase.recording ∧
    (run 100 initialState c7Inputs).1.vadSpeechDetected = false ∧
    (run 100 initialState c7Inputs).1.userStartedSpeaking = false ∧
    (run 100 initialState c7Inputs).1.isRealtimeStreaming = true ∧
    Event.sentBinary 100 ∈
      (step 100 (run 100 initialState c7Inputs).1 connectedSilentTick).2 := by
  decide

/-- In continuous-conversation mode, realtime streaming is only ever on
when the speech latch is set. -/
def StreamGate (st : SysState) : Prop :=
  st.isContinuousConversation = true → st.isRealtimeStreaming = true →
    st.vadSpeechDetected = true

theorem streamGate_exec (st : SysState) : StreamGate (executeExitLogic st).1 := by
  intro hc
  exact absurd hc (by simp [executeExitLogic])

theorem streamGate_commandRestart (st : SysState) (now : Nat) :
    StreamGate (commandRestart st now) := by
  intro _ hr
  exact absurd hr (by simp [commandRestart])

theorem streamGate_dispatch (st : SysState) (now id : Nat)
    (r : SysState × List Event) (h : commandDispatch st now id = some r) :
    StreamGate r.1 := by
  unfold commandDispatch at h
  split at h
  · injection h with h2
    rw [← h2]
    exact streamGate_commandRestart st now
  · split at h
    · injection h with h2
      rw [← h2]
      exact streamGate_commandRestart st now
    · split at h
      · injection h with h2
        rw [← h2]
        exact streamGate_exec st
      · split at h
        · injection h with h2
          rw [← h2]
          exact streamGate_commandRestart st now
        · cases h

theorem streamGate_vadHandle (st : SysState) (inp : TickInput)
    (h : StreamGate st) : StreamGate (vadHandle st inp).1 := by
  unfold vadHandle
  split
  · intro _ _
    rfl
  · split
    · split
      · split
        · intro _ hr
          exact absurd hr (by simp)
        · intro hc hr
          have hc' : st.isContinuousConversation = true := hc
          have hr' : (!st.isContinuousConversation) = true := hr
          rw [hc'] at hr'
          exact absurd hr' (by simp)
      · intro hc hr
        exact h hc hr
    · exact h

theorem streamGate_timeoutCheck (st : SysState) (inp : TickInput)
    (evs : List Event) (h : StreamGate st) :
    StreamGate (timeoutCheck st inp evs).1 := by
  unfold timeoutCheck
  split
  · exact streamGate_exec _
  · exact h

theorem streamGate_wakeup (st : SysState) (inp : TickInput)
    (h : StreamGate st) : StreamGate (wakeupStep st inp).1 := by
  unfold wakeupStep
  split
  · intro _ hr
    exact absurd hr (by simp)
  · exact h

theorem streamGate_response (st : SysState) (inp : TickInput)
    (h : StreamGate st) : StreamGate (responseStep st inp).1 := by
  unfold responseStep
  split
  · intro _ hr
    exact absurd hr (by simp)
  · exact h

theorem streamGate_recordingStep (st : SysState) (inp : TickInput)
    (samples : Nat) (h : StreamGate st) :
    StreamGate (recordingStep st inp samples).1 := by
  unfold recordingStep
  split
  · unfold recordingBody
    split
    · split
      · next r hr =>
        exact streamGate_dispatch _ inp.now _ r hr
      · unfold timeoutPost
        exact streamGate_timeoutCheck _ inp _ (streamGate_vadHandle _ inp h)
    · unfold timeoutPost
      exact streamGate_timeoutCheck _ inp _ (streamGate_vadHandle _ inp h)
  · split
    · apply streamGate_timeoutCheck
      intro _ hr
      exact absurd hr (by simp)
    · exact streamGate_timeoutCheck st inp [] h

theorem streamGate_step (st : SysState) (inp : TickInput) (samples : Nat)
    (h : StreamGate st) : StreamGate (step samples st inp).1 := by
  unfold step
  split
  · exact streamGate_wakeup st inp h
  · exact streamGate_recordingStep st inp samples h
  · exact streamGate_response st inp h

/-- The gate holds in every state reachable from boot. -/
theorem streamGate_invariant (samples : Nat) (st : SysState)
    (h : SysReachable samples st) : StreamGate st := by
  induction h with
  | init =>
    intro hc
    exact absurd hc (by decide)
  | step st inp _ ih => exact streamGate_step st inp samples ih

theorem sentBinary_not_exec (st : SysState) (b : Nat) :
    Event.sentBinary b ∉ (executeExitLogic st).2 := by
  simp [executeExitLogic]

theorem sentBinary_timeoutCheck_src (st : SysState) (inp : TickInput)
    (evs : List Event) (b : Nat)
    (h : Event.sentBinary b ∈ (timeoutCheck st inp evs).2) :
    Event.sentBinary b ∈ evs := by
  unfold timeoutCheck at h
  split at h
  · rcases List.mem_append.mp h with h1 | h1
    · exact h1
    · exact absurd h1 (sentBinary_not_exec _ b)
  · exact h

theorem sentBinary_not_vad (st : SysState) (inp : TickInput) (b : Nat) :
    Event.sentBinary b ∉ (vadHandle st inp).2 := by
  unfold vadHandle
  split
  · simp
  · split
    · split
      · split
        · split <;> simp
        · split <;> simp
      · simp
    · simp

theorem sentBinary_realtime (st : SysState) (inp : TickInput)
    (samples b : Nat)
    (h : Event.sentBinary b ∈ realtimeEvents st inp samples) :
    st.isRealtimeStreaming = true := by
  unfold realtimeEvents at h
  split at h
  · next hcond => exact hcond.1
  · exact absurd h (by simp)

theorem sentBinary_not_dispatch (st : SysState) (now id : Nat)
    (r : SysState × List Event) (h : commandDispatch st now id = some r)
    (b : Nat) : Event.sentBinary b ∉ r.2 := by
  unfold commandDispatch at h
  split at h
  · injection h with h2
    rw [← h2]
    simp
  · split at h
    · injection h with h2
      rw [← h2]
      simp
    · split at h
      · injection h with h2
        rw [← h2]
        exact sentBinary_not_exec st b
      · split at h
        · injection h with h2
          rw [← h2]
          simp
        · cases h

/-- Every binary uplink send requires realtime streaming to be enabled in
the pre-step state. -/
theorem sentBinary_implies_realtime (samples : Nat) (st : SysState)
    (inp : TickInput) (b : Nat)
    (h : Event.sentBinary b ∈ (step samples st inp).2) :
    st.isRealtimeStreaming = true := by
  unfold step at h
  split at h
  · exfalso
    unfold wakeupStep at h
    split at h
    · cases hws : inp.wsConnected <;> simp [hws] at h
    · exact absurd h (by simp)
  · unfold recordingStep at h
    split at h
    · unfold recordingBody at h
      split at h
      · split at h
        · next r hr =>
          rcases List.mem_append.mp h with h1 | h1
          · exact sentBinary_realtime _ inp samples b h1
          · exact absurd h1 (sentBinary_not_dispatch _ inp.now _ r hr b)
        · unfold timeoutPost at h
          have h2 := sentBinary_timeoutCheck_src _ inp _ b h
          rcases List.mem_append.mp h2 with h1 | h1
          · exact sentBinary_realtime _ inp samples b h1
          · exact absurd h1 (sentBinary_not_vad _ inp b)
      · unfold timeoutPost at h
        have h2 := sentBinary_timeoutCheck_src _ inp _ b h
        rcases List.mem_append.mp h2 with h1 | h1
        · exact sentBinary_realtime _ inp samples b h1
        · exact absurd h1 (sentBinary_not_vad _ inp b)
    · split at h
      · exfalso
        have h2 := sentBinary_timeoutCheck_src _ inp _ b h
        split at h2
        · exact absurd h2 (by simp)
        · exact absurd h2 (by simp)
      · exfalso
        have h2 := sentBinary_timeoutCheck_src _ inp _ b h
        exact absurd h2 (by simp)
  · exfalso
    unfold responseStep at h
    split at h
    · split at h
      · exact absurd h (by simp)
      · exact absurd h (by simp)
    · exact absurd h (by simp)

theorem sysReachable_run (samples : Nat) (inps : List TickInput) :
    ∀ st, SysReachable samples st →
      SysReachable samples (run samples st inps).1 := by
  induction inps with
  | nil => exact fun st h => h
  | cons i is ih =>
    intro st h
    rw [run_cons]
    exact ih _ (SysReachable.step st i h)

/-- C7 (amended): in continuous-conversation mode no captured frame is
sent to the transport as a binary uplink message while the speech latch is
clear — a silence-only preamble is never streamed after a
continuous-conversation re-entry.  (In a first, non-continuous
conversation the guarantee is broken by the post-cancel restart; see
`silence_streamed_counterexample`.) -/
theorem no_silence_preamble_continuous (samples b : Nat) (st : SysState)
    (inp : TickInput) (hreach : SysReachable samples st)
    (hcont : st.isContinuousConversation = true)
    (hlatch : st.vadSpeechDetected = false) :
    Event.sentBinary b ∉ (step samples st inp).2 := by
  intro hmem
  have hrt := sentBinary_implies_realtime samples st inp b hmem
  have hgate := streamGate_invariant samples st hreach
  rw [hgate hcont hrt] at hlatch
  exact absurd hlatch (by decide)

/-- Wake, a long-enough utterance ending in the silence debounce, then the
playback-completed tick: a reachable continuous-mode state with the latch
clear. -/
def c7wState : SysState :=
  (run 512 initialState
    (wakeTick :: speechTick :: (List.replicate 20 silentTick ++ [playedTick]))).1

set_option maxRecDepth 40000 in
/-- Witness for the amended C7 at a concrete reachable state. -/
theorem no_silence_preamble_continuous_witness :
    c7wState.isContinuousConversation = true ∧
    c7wState.vadSpeechDetected = false ∧
    Event.sentBinary 512 ∉ (step 512 c7wState connectedSilentTick).2 :=
  ⟨by decide, by decide,
   no_silence_preamble_continuous 512 512 c7wState connectedSilentTick
     (sysReachable_run 512 _ initialState SysReachable.init)
     (by decide) (by decide)⟩

/-! ### C2 and C4: debounce correctness -/

/-- When the debouncer fires inside a RECORDING step, the step either
leaves the RECORDING phase or resets the debouncer — the edge cannot fire
twice within one reset cycle. -/
theorem fire_oneshot (samples : Nat) (st : SysState) (inp : TickInput)
    (hrec : st.currentState = .recording)
    (hact : st.recorder.isRecording = true)
    (hnotfull : st.recorder.recordingLength < RECORDING_BUFFER_SIZE)
    (hcmd : inp.command = none) (hvad : inp.vad = .silence)
    (hlatch : st.vadSpeechDetected = true)
    (hfire : VAD_SILENCE_FRAMES_REQUIRED ≤ st.vadSilenceFrames + 1) :
    (step samples st inp).1.currentState ≠ Phase.recording ∨
    ((step samples st inp).1.vadSpeechDetected = false ∧
     (step samples st inp).1.vadSilenceFrames = 0) := by
  have hfull : isRecordingBufferFull st.recorder = false :=
    decide_eq_false (by omega)
  by_cases hlong : st.userStartedSpeaking = true ∧
      MIN_UTTERANCE_SAMPLES <
        (addRecordingData st.recorder samples).1.recordingLength
  · left
    rw [step_recording samples st inp hrec]
    unfold recordingStep recordingBody vadHandle timeoutPost timeoutCheck
      realtimeEvents
    simp [hact, hfull, hvad, hcmd, hlatch, hfire, hlong, hlong.1]
  · right
    rw [step_recording samples st inp hrec]
    unfold recordingStep recordingBody vadHandle timeoutPost timeoutCheck
      realtimeEvents executeExitLogic
    simp [hact, hfull, hvad, hcmd, hlatch, hfire, hlong]
    split_ifs <;> exact ⟨rfl, rfl⟩

/-- C2: over the embedded debouncer, (1) from a reset state the edge fires
iff some SPEECH frame is followed by 20 consecutive SILENCE frames, (2)
SPEECH resets the counter and sets the latch, (3) SILENCE leaves the state
unchanged when the latch is clear and increments the counter when it is
set, raising the edge exactly at the threshold, and (4) a firing RECORDING
step always leaves the phase or resets the debouncer, so the edge fires at
most once per reset cycle. -/
theorem silence_debounce_correct (cs : List VadClass) (n : Nat)
    (samples : Nat) (st : SysState) (inp : TickInput)
    (hrec : st.currentState = .recording)
    (hact : st.recorder.isRecording = true)
    (hnotfull : st.recorder.recordingLength < RECORDING_BUFFER_SIZE)
    (hcmd : inp.command = none) (hvad : inp.vad = .silence)
    (hlatch : st.vadSpeechDetected = true)
    (hfire : VAD_SILENCE_FRAMES_REQUIRED ≤ st.vadSilenceFrames + 1) :
    ((debRun debReset cs).2 = true ↔ ∃ j, SpeechWindow cs j) ∧
    (∀ b : Bool,
      debStep { vadSpeechDetected := b, vadSilenceFrames := n } .speech =
        ({ vadSpeechDetected := true, vadSilenceFrames := 0 }, false)) ∧
    debStep { vadSpeechDetected := false, vadSilenceFrames := n } .silence =
      ({ vadSpeechDetected := false, vadSilenceFrames := n }, false) ∧
    debStep { vadSpeechDetected := true, vadSilenceFrames := n } .silence =
      ({ vadSpeechDetected := true, vadSilenceFrames := n + 1 },
       decide (VAD_SILENCE_FRAMES_REQUIRED ≤ n + 1)) ∧
    ((step samples st inp).1.currentState ≠ Phase.recording ∨
     ((step samples st inp).1.vadSpeechDetected = false ∧
      (step samples st inp).1.vadSilenceFrames = 0)) :=
  ⟨debReset_fires_iff cs, fun _ => rfl,
   debStep_silence_false { vadSpeechDetected := false, vadSilenceFrames := n } rfl,
   debStep_silence_true { vadSpeechDetected := true, vadSilenceFrames := n } rfl,
   fire_oneshot samples st inp hrec hact hnotfull hcmd hvad hlatch hfire⟩

/-- A RECORDING state about to fire the debounce edge. -/
def c2State : SysState :=
  { currentState := .recording,
    vadSpeechDetected := true,
    vadSilenceFrames := 19,
    userStartedSpeaking := true,
    isContinuousConversation := false,
    recordingTimeoutStart := 0,
    isRealtimeStreaming := true,
    recorder := { isRecording := true, recordingLength := 16000 } }

/-- Witness for C2 at concrete inputs. -/
theorem silence_debounce_correct_witness :
    c2State.currentState = Phase.recording ∧
    c2State.recorder.isRecording = true ∧
    c2State.recorder.recordingLength < RECORDING_BUFFER_SIZE ∧
    connectedSilentTick.command = none ∧
    connectedSilentTick.vad = VadClass.silence ∧
    c2State.vadSpeechDetected = true ∧
    VAD_SILENCE_FRAMES_REQUIRED ≤ c2State.vadSilenceFrames + 1 ∧
    (((debRun debReset
        (VadClass.speech :: List.replicate 20 VadClass.silence)).2 = true ↔
      ∃ j, SpeechWindow
        (VadClass.speech :: List.replicate 20 VadClass.silence) j) ∧
     (∀ b : Bool,
       debStep { vadSpeechDetected := b, vadSilenceFrames := 3 } .speech =
         ({ vadSpeechDetected := true, vadSilenceFrames := 0 }, false)) ∧
     debStep { vadSpeechDetected := false, vadSilenceFrames := 3 } .silence =
       ({ vadSpeechDetected := false, vadSilenceFrames := 3 }, false) ∧
     debStep { vadSpeechDetected := true, vadSilenceFrames := 3 } .silence =
       ({ vadSpeechDetected := true, vadSilenceFrames := 3 + 1 },
        decide (VAD_SILENCE_FRAMES_REQUIRED ≤ 3 + 1)) ∧
     ((step 512 c2State connectedSilentTick).1.currentState ≠ Phase.recording ∨
      ((step 512 c2State connectedSilentTick).1.vadSpeechDetected = false ∧
       (step 512 c2State connectedSilentTick).1.vadSilenceFrames = 0))) :=
  ⟨rfl, rfl, by decide, rfl, rfl, rfl, by decide,
   silence_debounce_correct
     (VadClass.speech :: List.replicate 20 VadClass.silence) 3 512 c2State
     connectedSilentTick rfl rfl (by decide) rfl rfl rfl (by decide)⟩

/-- C4: a frame sequence of only SILENCE classifications from the
debouncer reset at phase entry never raises the utterance-ended edge: the
had-speech latch gates the silence counter. -/
theorem silence_only_no_end (cs : List VadClass)
    (h : ∀ c ∈ cs, c = VadClass.silence) :
    (debRun debReset cs).2 = false := by
  rw [debRun_silence_only cs debReset rfl h]

/-- Witness for C4. -/
theorem silence_only_no_end_witness :
    (∀ c ∈ [VadClass.silence, VadClass.silence, VadClass.silence],
      c = VadClass.silence) ∧
    (debRun debReset
      [VadClass.silence, VadClass.silence, VadClass.silence]).2 = false :=
  ⟨by decide,
   silence_only_no_end [VadClass.silence, VadClass.silence, VadClass.silence]
     (by decide)⟩

end Xiaozhi
